import Mathlib

/-!
DNS expectation checker: embedding of `check.go` and `config.go`.

The Go program compiles a map of named check configurations into checks
(`NewChecker`), runs one DNS exchange per check (`Checker.Run`) and compares
the three sections of the response against the expected records
(`verifyExpectation`).

Conventions of the embedding.

* A Go `error` is represented by its message (`err.Error()`); a nilable error
  is an `Option String`.
* `time.Duration` and the timestamp are integers (nanoseconds).
* A Go map is an association list in iteration order; `GoMap.set` is the
  assignment `m[k] = v`.
* The DNS and time libraries are not part of the repository.  Their parsers are
  taken as parameters (`Lib`), the network as a state-passing oracle (`Env`).
* A value of the interface type `dns.RR` is a record or nil: an `Option RR`.
  Calling `String()` on the nil value panics; a panic is the result `none`.
-/

set_option autoImplicit false

namespace DnsCheck

/-! ## Library data -/

/-- Nanoseconds, as in `time.Duration`. -/
abbrev Duration := Int

/-- One second, `time.Second`. -/
def Second : Duration := 1000000000

/-- A resource record of the DNS library (`dns.RR`): the header fields and the
type-specific data in presentation form. -/
structure RR where
  Name : String
  Ttl : Nat
  Class : String
  Rrtype : String
  Rdata : String
  deriving DecidableEq, Repr

/-- Canonical textual form of a record (`RR.String()` of the DNS library):
the header fields separated by tabs, followed by the data. -/
def RR.String (rr : RR) : String :=
  rr.Name ++ "\t" ++ toString rr.Ttl ++ "\t" ++ rr.Class ++ "\t" ++ rr.Rrtype ++ "\t" ++ rr.Rdata

/-- A question of a DNS message (`dns.Question`). -/
structure Question where
  Name : String
  Qtype : Nat
  Qclass : Nat
  deriving DecidableEq, Repr

/-- The fields of `dns.Msg` the program reads or writes. -/
structure Msg where
  RecursionDesired : Bool
  Rcode : Nat
  Question : List Question
  Answer : List RR
  Ns : List RR
  Extra : List RR
  deriving DecidableEq, Repr

/-- Response code `dns.RcodeSuccess`. -/
def RcodeSuccess : Nat := 0

/-- Record type `dns.TypeA`. -/
def TypeA : Nat := 1

/-- Class `dns.ClassINET`. -/
def ClassINET : Nat := 1

/-- The fields of `dns.Client` the program sets. -/
structure Client where
  Net : String
  Timeout : Duration
  deriving DecidableEq, Repr

/-! ## `config.go` -/

/-- The `ExpectConfig` struct of `config.go`. -/
structure ExpectConfig where
  AnswerSection : List String
  AuthoritySection : List String
  AdditionalSection : List String
  deriving DecidableEq, Repr

/-- The `CheckConfig` struct of `config.go`.

Modelled from the spec: the field `UseTCP` is read by `NewChecker`
(`cConfig.UseTCP`) but is not declared in `config.go`; the spec lists a
boolean use-TCP flag among the configuration inputs. -/
structure CheckConfig where
  Resolver : String
  ResolverTimeout : String
  Resolve : String
  Expect : ExpectConfig
  UseTCP : Bool
  deriving DecidableEq, Repr

/-! ## `check.go`: data -/

/-- The `Expect` struct.  Its sections hold what `dns.NewRR` returned, which
may be the nil record. -/
structure Expect where
  AnswerSection : List (Option RR)
  AuthoritySection : List (Option RR)
  AdditionalSection : List (Option RR)
  deriving DecidableEq, Repr

/-- The `Check` struct. -/
structure Check where
  Resolver : String
  ResolverTimeout : Duration
  Proto : String
  Resolve : String
  Expect : Expect
  ExpectConfig : ExpectConfig
  deriving DecidableEq, Repr

/-- A Go map with string keys, as the list of its entries. -/
abbrev GoMap (α : Type) := List (String × α)

/-- The assignment `m[k] = v`: overwrite the entry of `k`, or add one. -/
def GoMap.set {α : Type} : GoMap α → String → α → GoMap α
  | [], k, v => [(k, v)]
  | (k0, v0) :: rest, k, v =>
    if k0 = k then (k, v) :: rest else (k0, v0) :: GoMap.set rest k v

/-- The `Checker` struct; the nil map of `Checker{}` is the empty list. -/
structure Checker where
  Checks : GoMap Check
  deriving DecidableEq, Repr

/-- The `CheckResult` struct. -/
structure CheckResult where
  Name : String
  Timestamp : Int
  RTT : Duration
  Error : Option String
  ErrorString : String
  AsExpected : Bool
  Check : Check
  response : Option Msg
  deriving DecidableEq, Repr

/-- `func (cr CheckResult) OK() bool`. -/
def CheckResult.OK (cr : CheckResult) : Bool :=
  cr.Error == none && cr.AsExpected

/-! ## `check.go`: `verifyExpectation` -/

/-- The inner loop of `verifyExpectation`: scan `have_` and raise `found` at
every record whose text equals that of `expectedRR`; the `continue` moves on to
the next record. -/
def verifyExpectation.scan (expectedRR : RR) : List RR → Bool → Bool
  | [], found => found
  | haveRR :: rest, found =>
    if haveRR.String = expectedRR.String then
      verifyExpectation.scan expectedRR rest true
    else
      verifyExpectation.scan expectedRR rest found

/-- `func verifyExpectation(expected, have []dns.RR) bool`. -/
def verifyExpectation : List RR → List RR → Bool
  | [], _ => true
  | expectedRR :: rest, have_ =>
    if !(verifyExpectation.scan expectedRR have_ false) then false
    else verifyExpectation rest have_

/-- The inner loop of `verifyExpectation` for an expected value that may be the
nil record: the comparison `haveRR.String() == expectedRR.String()` of line 168
calls `String()` on it and panics at the first observed record; a record is
scanned for as in `verifyExpectation.scan`. -/
def verifyExpectation.scanNilable (expectedRR : Option RR) : List RR → Bool → Option Bool
  | [], found => some found
  | haveRR :: rest, found =>
    match expectedRR with
    | none => none
    | some e =>
      if haveRR.String = e.String then
        verifyExpectation.scanNilable (some e) rest true
      else
        verifyExpectation.scanNilable (some e) rest found

/-- The function `verifyExpectation` on an expected sequence that may hold nil
records: the same two loops, with `none` for a panic.  On records it is
`verifyExpectation` (lemma `nilable_map_some`). -/
def verifyExpectation.nilable : List (Option RR) → List RR → Option Bool
  | [], _ => some true
  | expectedRR :: rest, have_ =>
    match verifyExpectation.scanNilable expectedRR have_ false with
    | none => none
    | some found =>
      if !found then some false
      else verifyExpectation.nilable rest have_

/-! ## The libraries, as parameters -/

/-- The library functions `NewChecker` and `Run` call: `dns.NewRR`,
`time.ParseDuration` and `dns.Fqdn`.  `dns.NewRR` returns an error, or a
record, or for a string that holds no record neither of them: `(nil, nil)`,
here `Except.ok none`. -/
structure Lib where
  NewRR : String → Except String (Option RR)
  ParseDuration : String → Except String Duration
  Fqdn : String → String

/-- What `client.Exchange(m, address)` returns, the triple `(r, rtt, err)`.
With `err != nil` the message `r` may or may not be nil; with `err == nil` the
library hands back a message. -/
inductive Exchanged where
  | failed (r : Option Msg) (rtt : Duration) (err : String)
  | replied (r : Msg) (rtt : Duration)
  deriving DecidableEq, Repr

/-- The outside world of a run, over a state `W`: the clock behind
`time.Now()` and the network behind `client.Exchange`. -/
structure Env (W : Type) where
  Now : W → Int × W
  Exchange : W → Client → Msg → String → Exchanged × W

/-- The zero message `new(dns.Msg)`. -/
def Msg.new : Msg :=
  { RecursionDesired := false, Rcode := 0, Question := [], Answer := [], Ns := [], Extra := [] }

/-- The library call `m.SetQuestion(z, t)`: one question of class INET, recursion desired. -/
def Msg.SetQuestion (m : Msg) (z : String) (t : Nat) : Msg :=
  { m with RecursionDesired := true, Question := [{ Name := z, Qtype := t, Qclass := ClassINET }] }

/-- The zero client `new(dns.Client)`. -/
def Client.new : Client := { Net := "", Timeout := 0 }

/-! ## `check.go`: `NewChecker` -/

/-- One of the three section loops of `NewChecker`: parse every string with
`dns.NewRR`, append the record to the section, return at the first error. -/
def NewChecker.parseSection (lib : Lib) :
    List (Option RR) → List String → Except String (List (Option RR))
  | sec, [] => Except.ok sec
  | sec, e :: rest =>
    match lib.NewRR e with
    | Except.error err => Except.error err
    | Except.ok rr => NewChecker.parseSection lib (sec ++ [rr]) rest

/-- The body of the loop of `NewChecker` for one configuration: the check it
stores, or the error it returns with. -/
def NewChecker.compile (lib : Lib) (cConfig : CheckConfig) : Except String Check :=
  match NewChecker.parseSection lib [] cConfig.Expect.AnswerSection with
  | Except.error err => Except.error err
  | Except.ok ansSec =>
    match NewChecker.parseSection lib [] cConfig.Expect.AuthoritySection with
    | Except.error err => Except.error err
    | Except.ok authSec =>
      match NewChecker.parseSection lib [] cConfig.Expect.AdditionalSection with
      | Except.error err => Except.error err
      | Except.ok addSec =>
        let expect : Expect :=
          { AnswerSection := ansSec, AuthoritySection := authSec, AdditionalSection := addSec }
        let timeoutString := if cConfig.ResolverTimeout = "" then "5s" else cConfig.ResolverTimeout
        match lib.ParseDuration timeoutString with
        | Except.error err => Except.error err
        | Except.ok timeout =>
          let proto := if cConfig.UseTCP then "tcp" else "udp"
          Except.ok
            { Resolver := cConfig.Resolver
              ResolverTimeout := timeout
              Proto := proto
              Resolve := cConfig.Resolve
              Expect := expect
              ExpectConfig := cConfig.Expect }

/-- The loop of `NewChecker` over the configurations in iteration order,
with the map `checks` built so far. -/
def NewChecker.loop (lib : Lib) : GoMap Check → List (String × CheckConfig) → Except String (GoMap Check)
  | checks, [] => Except.ok checks
  | checks, (cName, cConfig) :: rest =>
    match NewChecker.compile lib cConfig with
    | Except.error err => Except.error err
    | Except.ok check => NewChecker.loop lib (GoMap.set checks cName check) rest

/-- `func NewChecker(checkConfigs map[string]CheckConfig) (Checker, error)`.
Both returned values are kept: on an error the checker is still `Checker{}`. -/
def NewChecker (lib : Lib) (checkConfigs : GoMap CheckConfig) : Checker × Option String :=
  let checker : Checker := { Checks := [] }
  match NewChecker.loop lib [] checkConfigs with
  | Except.error err => (checker, some err)
  | Except.ok checks => ({ checker with Checks := checks }, none)

/-! ## `check.go`: `Checker.Run` -/

/-- The error of line 121,
`fmt.Errorf("ERROR: Failed to run check '%s', error was: %s\n", checkName, err.Error())`. -/
def Checker.Run.failedMsg (checkName err : String) : String :=
  "ERROR: Failed to run check '" ++ checkName ++ "', error was: " ++ err ++ "\n"

/-- The error of line 127, `fmt.Errorf("ERROR: invalid answer for check '%s'\n", checkName)`. -/
def Checker.Run.invalidMsg (checkName : String) : String :=
  "ERROR: invalid answer for check '" ++ checkName ++ "'\n"

/-- Lines 103-104: the shared client set up for `check`. -/
def Checker.Run.configure (client : Client) (check : Check) : Client :=
  { client with Net := check.Proto, Timeout := check.ResolverTimeout }

/-- Lines 111-113: the query message built for `check`. -/
def Checker.Run.query (lib : Lib) (check : Check) : Msg :=
  let m := Msg.new
  let m := m.SetQuestion (lib.Fqdn check.Resolve) TypeA
  { m with RecursionDesired := true }

/-- Line 115: the exchange issued for `check`, after the clock was read for the result. -/
def Checker.Run.exchange {W : Type} (env : Env W) (lib : Lib) (w : W) (client : Client)
    (check : Check) : Exchanged × W :=
  env.Exchange (env.Now w).2 (Checker.Run.configure client check) (Checker.Run.query lib check)
    check.Resolver

/-- Lines 105-109 and 116-138: the result appended to `out` for what the
exchange returned; `none` when one of the three verifications panics. -/
def Checker.Run.record (checkName : String) (check : Check) (now : Int) (x : Exchanged) :
    Option CheckResult :=
  let result : CheckResult :=
    { Name := checkName, Timestamp := now, RTT := 0, Error := none, ErrorString := "",
      AsExpected := false, Check := check, response := none }
  match x with
  | Exchanged.failed r rtt err =>
    let result := { result with response := r, RTT := rtt }
    some { result with ErrorString := err, Error := some (Checker.Run.failedMsg checkName err) }
  | Exchanged.replied r rtt =>
    let result := { result with response := some r, RTT := rtt }
    if r.Rcode ≠ RcodeSuccess then
      let err := Checker.Run.invalidMsg checkName
      some { result with ErrorString := err, Error := some err }
    else
      match verifyExpectation.nilable check.Expect.AnswerSection r.Answer with
      | none => none
      | some ansOk =>
        match verifyExpectation.nilable check.Expect.AuthoritySection r.Ns with
        | none => none
        | some authOk =>
          match verifyExpectation.nilable check.Expect.AdditionalSection r.Extra with
          | none => none
          | some addOk => some { result with AsExpected := ansOk && authOk && addOk }

/-- The body of the loop of `Run` for one check: the result it appends (or the
panic), the world after the exchange and the client as it leaves it. -/
def Checker.Run.body {W : Type} (env : Env W) (lib : Lib) (w : W) (client : Client)
    (checkName : String) (check : Check) : Option CheckResult × W × Client :=
  let x := Checker.Run.exchange env lib w client check
  (Checker.Run.record checkName check (env.Now w).1 x.1, x.2, Checker.Run.configure client check)

/-- The loop of `Run` over the checks in iteration order, with the world, the
shared client and the results `out` so far.  A panic in the body is not
recovered: it ends the loop without any result. -/
def Checker.Run.loop {W : Type} (env : Env W) (lib : Lib) :
    W → Client → List CheckResult → List (String × Check) → Option (List CheckResult)
  | _, _, out, [] => some out
  | w, client, out, (checkName, check) :: rest =>
    let b := Checker.Run.body env lib w client checkName check
    match b.1 with
    | none => none
    | some result => Checker.Run.loop env lib b.2.1 b.2.2 (out ++ [result]) rest

/-- `func (c Checker) Run() []CheckResult`, started in world `w`; `none` when
the run panics. -/
def Checker.Run {W : Type} (env : Env W) (lib : Lib) (w : W) (c : Checker) :
    Option (List CheckResult) :=
  Checker.Run.loop env lib w Client.new [] c.Checks

/-! ## What the claims speak of -/

/-- All expectation strings of a configuration, the three sections in the
order `NewChecker` parses them. -/
def CheckConfig.expectStrings (c : CheckConfig) : List String :=
  c.Expect.AnswerSection ++ c.Expect.AuthoritySection ++ c.Expect.AdditionalSection

/-- A parser rejects the configuration with `err`: the record parser one of
its expectation strings, or the duration parser its non-empty timeout string. -/
def CheckConfig.RejectedWith (lib : Lib) (c : CheckConfig) (err : String) : Prop :=
  (∃ e ∈ c.expectStrings, lib.NewRR e = Except.error err) ∨
    (c.ResolverTimeout ≠ "" ∧ lib.ParseDuration c.ResolverTimeout = Except.error err)

/-! ## A concrete library and world, for the examples -/

/-- The digit value `c - '0'`. -/
def time.digit (c : Char) : Nat := c.toNat - 48

/-- Whether `c` is one of `0`..`9`. -/
def time.isDigit (c : Char) : Bool := decide (48 ≤ c.toNat) && decide (c.toNat ≤ 57)

/-- `leadingInt` of Go's package `time`: the value of the leading digits and
the rest of the input; `none` when the value passes `1<<63`. -/
def time.leadingInt : Nat → List Char → Option (Nat × List Char)
  | x, [] => some (x, [])
  | x, c :: s =>
    if !time.isDigit c then some (x, c :: s)
    else if x > 2 ^ 63 / 10 then none
    else if x * 10 + time.digit c > 2 ^ 63 then none
    else time.leadingInt (x * 10 + time.digit c) s

/-- `leadingFraction` of Go's package `time`: value and scale of the leading
digits, which stop counting once the value would overflow, and the rest. -/
def time.leadingFraction : Nat → Nat → Bool → List Char → Nat × Nat × List Char
  | x, scale, _, [] => (x, scale, [])
  | x, scale, overflow, c :: s =>
    if !time.isDigit c then (x, scale, c :: s)
    else if overflow then time.leadingFraction x scale overflow s
    else if x > (2 ^ 63 - 1) / 10 then time.leadingFraction x scale true s
    else if x * 10 + time.digit c > 2 ^ 63 then time.leadingFraction x scale true s
    else time.leadingFraction (x * 10 + time.digit c) (scale * 10) false s

/-- The `unitMap` of Go's package `time`, in nanoseconds. -/
def time.unitMap (u : List Char) : Option Nat :=
  if u = ['n', 's'] then some 1
  else if u = ['u', 's'] ∨ u = ['µ', 's'] ∨ u = ['μ', 's'] then some 1000
  else if u = ['m', 's'] then some 1000000
  else if u = ['s'] then some 1000000000
  else if u = ['m'] then some 60000000000
  else if u = ['h'] then some 3600000000000
  else none

/-- The message of the error `time.ParseDuration` returns for a malformed input. -/
def time.invalid (orig : String) : String := "time: invalid duration \"" ++ orig ++ "\""

/-- The loop of `time.ParseDuration` over the terms `[0-9]*(\.[0-9]*)?[a-z]+`,
with the sum `d` so far as a `uint64`.  Every round consumes a character, so
the length of the input is fuel enough.  The fractional part, which Go scales
in `float64`, is scaled here in exact arithmetic. -/
def time.ParseDuration.loop (orig : String) : Nat → Nat → List Char → Except String Nat
  | _, d, [] => Except.ok d
  | 0, _, _ :: _ => Except.error (time.invalid orig)
  | fuel + 1, d, c :: s =>
    if !(c = '.' ∨ time.isDigit c) then Except.error (time.invalid orig)
    else
      match time.leadingInt 0 (c :: s) with
      | none => Except.error (time.invalid orig)
      | some (v, s1) =>
        let pre := decide (s1.length ≠ (c :: s).length)
        let frac : Nat × Nat × List Char × Bool :=
          match s1 with
          | '.' :: s2 =>
            let r := time.leadingFraction 0 1 false s2
            (r.1, r.2.1, r.2.2, decide (r.2.2.length ≠ s2.length))
          | _ => (0, 1, s1, false)
        let f := frac.1
        let scale := frac.2.1
        let s3 := frac.2.2.1
        let post := frac.2.2.2
        if !pre && !post then Except.error (time.invalid orig)
        else
          let u := s3.takeWhile (fun c => !(c = '.' ∨ time.isDigit c))
          let s4 := s3.dropWhile (fun c => !(c = '.' ∨ time.isDigit c))
          if u = [] then Except.error ("time: missing unit in duration \"" ++ orig ++ "\"")
          else
            match time.unitMap u with
            | none =>
              Except.error ("time: unknown unit \"" ++ String.mk u ++ "\" in duration \"" ++ orig ++ "\"")
            | some unit =>
              if v > 2 ^ 63 / unit then Except.error (time.invalid orig)
              else
                let v := if f > 0 then v * unit + f * unit / scale else v * unit
                if v > 2 ^ 63 then Except.error (time.invalid orig)
                else
                  let d := (d + v) % 2 ^ 64
                  if d > 2 ^ 63 then Except.error (time.invalid orig)
                  else time.ParseDuration.loop orig fuel d s4

/-- Go's `time.ParseDuration`: an optional sign, then `0` alone or a sequence
of terms with a unit. -/
def time.ParseDuration (s : String) : Except String Duration :=
  let neg := decide (s.toList.head? = some '-')
  let rest := if s.toList.head? = some '-' ∨ s.toList.head? = some '+' then s.toList.tail else s.toList
  if rest = ['0'] then Except.ok 0
  else if rest = [] then Except.error (time.invalid s)
  else
    match time.ParseDuration.loop s rest.length 0 rest with
    | Except.error err => Except.error err
    | Except.ok d =>
      if neg then Except.ok (-(d : Int))
      else if d > 2 ^ 63 - 1 then Except.error (time.invalid s)
      else Except.ok (d : Int)

/-- The blank-separated fields of a line. -/
def zone.fields : List Char → List Char → List (List Char)
  | cur, [] => if cur = [] then [] else [cur]
  | cur, c :: s =>
    if c = ' ' ∨ c = '\t' then
      if cur = [] then zone.fields [] s else cur :: zone.fields [] s
    else zone.fields (cur ++ [c]) s

/-- The number written by a list of digits. -/
def zone.number : Nat → List Char → Nat
  | x, [] => x
  | x, c :: s => zone.number (x * 10 + time.digit c) s

/-- A reader for the full presentation form `name ttl class type data`, the
shape of record line used in the examples.  A string without any field, or
whose first field opens a comment, holds no record and gives the nil record
without an error, as `dns.NewRR` does; every other line is rejected.  It
stands in for `dns.NewRR`, which reads the whole zone-file grammar. -/
def zone.NewRR (s : String) : Except String (Option RR) :=
  match zone.fields [] s.toList with
  | [] => Except.ok none
  | (';' :: _) :: _ => Except.ok none
  | name :: ttl :: cls :: typ :: d :: ds =>
    if ttl.all time.isDigit then
      Except.ok
        (some
          { Name := String.mk name, Ttl := zone.number 0 ttl, Class := String.mk cls,
            Rrtype := String.mk typ, Rdata := String.mk (List.intercalate [' '] (d :: ds)) })
    else Except.error ("dns: not a TTL: \"" ++ String.mk ttl ++ "\"")
  | _ => Except.error ("dns: bad record: \"" ++ s ++ "\"")

/-- The function `dns.Fqdn`: add the final dot when it is missing. -/
def zone.Fqdn (s : String) : String :=
  if s.toList.getLast? = some '.' then s else s ++ "."

/-- The library instance of the examples. -/
def goLib : Lib :=
  { NewRR := zone.NewRR, ParseDuration := time.ParseDuration, Fqdn := zone.Fqdn }

/-- A world whose state counts the clock readings and exchanges made so far;
the resolver address decides what an exchange returns. -/
def scriptedEnv (answer : String → Exchanged) : Env Nat :=
  { Now := fun w => ((w : Int), w + 1)
    Exchange := fun w _ _ address => (answer address, w + 1) }

/-- The record `example.com. 300 IN A 93.184.216.34`. -/
def exampleRR : RR :=
  { Name := "example.com.", Ttl := 300, Class := "IN", Rrtype := "A", Rdata := "93.184.216.34" }

/-- A configuration expecting `exampleRR` in the answer section, no timeout given. -/
def exampleConfig : CheckConfig :=
  { Resolver := "192.0.2.53:53", ResolverTimeout := "", Resolve := "example.com",
    Expect :=
      { AnswerSection := ["example.com. 300 IN A 93.184.216.34"], AuthoritySection := [],
        AdditionalSection := [] },
    UseTCP := false }

/-- The check compiled from `exampleConfig`. -/
def exampleCheck : Check :=
  { Resolver := "192.0.2.53:53", ResolverTimeout := 5 * Second, Proto := "udp",
    Resolve := "example.com",
    Expect :=
      { AnswerSection := [some exampleRR], AuthoritySection := [], AdditionalSection := [] },
    ExpectConfig := exampleConfig.Expect }

/-- A response with the given code that carries `exampleRR` as its answer. -/
def exampleReply (rcode : Nat) : Msg :=
  { RecursionDesired := true, Rcode := rcode,
    Question := [{ Name := "example.com.", Qtype := TypeA, Qclass := ClassINET }],
    Answer := [exampleRR], Ns := [], Extra := [] }

/-- A world in which no resolver answers in time. -/
def timeoutEnv : Env Nat :=
  scriptedEnv (fun _ => Exchanged.failed none 0 "read udp 192.0.2.53:53: i/o timeout")

/-- A world in which the reply cannot be unpacked to the end: the library
returns the message it has, together with the error. -/
def garbledEnv : Env Nat :=
  scriptedEnv (fun _ => Exchanged.failed (some (exampleReply 0)) 1000000 "dns: overflow unpacking uint16")

/-- A world in which every resolver answers with the given response code. -/
def replyEnv (rcode : Nat) : Env Nat :=
  scriptedEnv (fun _ => Exchanged.replied (exampleReply rcode) 1000000)

/-- A configuration whose answer expectation lacks the type and the data. -/
def brokenConfig : CheckConfig :=
  { Resolver := "192.0.2.53:53", ResolverTimeout := "2s", Resolve := "example.org",
    Expect :=
      { AnswerSection := ["example.org. 300 IN"], AuthoritySection := [], AdditionalSection := [] },
    UseTCP := true }

/-- The example configuration with the timeout string `0`. -/
def zeroTimeoutConfig : CheckConfig := { exampleConfig with ResolverTimeout := "0" }

/-- The example configuration with the timeout string `-1s`. -/
def negativeTimeoutConfig : CheckConfig := { exampleConfig with ResolverTimeout := "-1s" }

/-- The example configuration with the use-TCP flag set. -/
def tcpConfig : CheckConfig := { exampleConfig with UseTCP := true }

/-- An unrelated record, `example.com. 300 IN AAAA 2001:db8::1`. -/
def exampleAAAA : RR :=
  { Name := "example.com.", Ttl := 300, Class := "IN", Rrtype := "AAAA", Rdata := "2001:db8::1" }

/-- A configuration whose one answer expectation is the empty string. -/
def blankConfig : CheckConfig :=
  { Resolver := "192.0.2.53:53", ResolverTimeout := "", Resolve := "example.net",
    Expect := { AnswerSection := [""], AuthoritySection := [], AdditionalSection := [] },
    UseTCP := false }

/-- The check compiled from `blankConfig`: its answer section holds the nil record. -/
def blankCheck : Check :=
  { Resolver := "192.0.2.53:53", ResolverTimeout := 5 * Second, Proto := "udp",
    Resolve := "example.net",
    Expect := { AnswerSection := [none], AuthoritySection := [], AdditionalSection := [] },
    ExpectConfig := blankConfig.Expect }

/-- A world that keeps the list of the exchanges made: client, message and
address of each, in order; what an exchange returns is decided by `answer`. -/
def recordingEnv (answer : Client → Msg → String → Exchanged) :
    Env (List (Client × Msg × String)) :=
  { Now := fun w => (0, w)
    Exchange := fun w client m address => (answer client m address, w ++ [(client, m, address)]) }

/-! ## Lemmas on `verifyExpectation` -/

theorem scan_true (e : RR) (hs : List RR) : verifyExpectation.scan e hs true = true := by
  induction hs with
  | nil => rfl
  | cons h t ih => simp [verifyExpectation.scan, ih]

theorem scan_false_iff (e : RR) (hs : List RR) :
    verifyExpectation.scan e hs false = true ↔ ∃ h ∈ hs, h.String = e.String := by
  induction hs with
  | nil => simp [verifyExpectation.scan]
  | cons h t ih =>
    by_cases hh : h.String = e.String
    · simp [verifyExpectation.scan, hh, scan_true]
    · simp [verifyExpectation.scan, hh, ih]

/-! ## Claims -/

/-- C1: `verifyExpectation expected observed` is true exactly when every
expected record has an observed record with the same canonical text. -/
theorem verifyExpectation_iff (expected observed : List RR) :
    verifyExpectation expected observed = true ↔
      ∀ e ∈ expected, ∃ h ∈ observed, h.String = e.String := by
  induction expected with
  | nil => simp [verifyExpectation]
  | cons e t ih =>
    by_cases hs : verifyExpectation.scan e observed false = true
    · have hex := (scan_false_iff e observed).1 hs
      simp [verifyExpectation, hs, ih, hex]
    · have hex : ¬ ∃ h ∈ observed, h.String = e.String :=
        fun hx => hs ((scan_false_iff e observed).2 hx)
      simp only [Bool.not_eq_true] at hs
      simp only [verifyExpectation, hs, List.mem_cons, forall_eq_or_imp]
      constructor
      · intro hf; simp at hf
      · intro hf; exact absurd hf.1 hex

/-- C3: `OK()` holds exactly when no error is recorded and `AsExpected` is
set; with an error recorded it is false whatever `AsExpected` is. -/
theorem ok_iff (cr : CheckResult) :
    (cr.OK = true ↔ cr.Error = none ∧ cr.AsExpected = true) ∧
      ∀ (e : String) (b : Bool),
        ({ cr with Error := some e, AsExpected := b } : CheckResult).OK = false := by
  constructor
  · simp [CheckResult.OK]
  · intro e b
    simp [CheckResult.OK]

/-! ## Lemmas on `Checker.Run` -/

theorem failedMsg_ne_empty (checkName err : String) : Checker.Run.failedMsg checkName err ≠ "" := by
  intro h
  have := congrArg String.data h
  simp [Checker.Run.failedMsg, String.data_append] at this

theorem invalidMsg_ne_empty (checkName : String) : Checker.Run.invalidMsg checkName ≠ "" := by
  intro h
  have := congrArg String.data h
  simp [Checker.Run.invalidMsg, String.data_append] at this

theorem invalidMsg_ne_failedMsg (checkName err : String) :
    Checker.Run.invalidMsg checkName ≠ Checker.Run.failedMsg checkName err := by
  intro h
  have := congrArg String.data h
  simp [Checker.Run.invalidMsg, Checker.Run.failedMsg, String.data_append] at this

theorem scanNilable_some (e : RR) (hs : List RR) :
    ∀ found : Bool,
      verifyExpectation.scanNilable (some e) hs found = some (verifyExpectation.scan e hs found) := by
  induction hs with
  | nil => intro found; rfl
  | cons h t ih =>
    intro found
    by_cases hh : h.String = e.String
    · simp [verifyExpectation.scanNilable, verifyExpectation.scan, hh, ih]
    · simp [verifyExpectation.scanNilable, verifyExpectation.scan, hh, ih]

theorem nilable_map_some (expected observed : List RR) :
    verifyExpectation.nilable (expected.map some) observed =
      some (verifyExpectation expected observed) := by
  induction expected with
  | nil => rfl
  | cons e t ih =>
    simp only [List.map_cons, verifyExpectation.nilable, verifyExpectation, scanNilable_some]
    cases verifyExpectation.scan e observed false with
    | true => simpa using ih
    | false => simp

theorem nilable_total (expected : List (Option RR)) (observed : List RR)
    (h : ∀ e ∈ expected, e ≠ none) :
    ∃ b, verifyExpectation.nilable expected observed = some b := by
  induction expected with
  | nil => exact ⟨true, rfl⟩
  | cons e t ih =>
    cases e with
    | none => exact absurd rfl (h none (List.mem_cons_self _ _))
    | some x =>
      simp only [verifyExpectation.nilable, scanNilable_some]
      cases verifyExpectation.scan x observed false with
      | true => simpa using ih (fun e he => h e (List.mem_cons_of_mem _ he))
      | false => exact ⟨false, by simp⟩

theorem body_fst {W : Type} (env : Env W) (lib : Lib) (w : W) (client : Client)
    (checkName : String) (check : Check) :
    (Checker.Run.body env lib w client checkName check).1 =
      Checker.Run.record checkName check (env.Now w).1
        (Checker.Run.exchange env lib w client check).1 := rfl

theorem record_failed (checkName : String) (check : Check) (now : Int) (r : Option Msg)
    (rtt : Duration) (err : String) :
    Checker.Run.record checkName check now (Exchanged.failed r rtt err) =
      some
        { Name := checkName, Timestamp := now, RTT := rtt,
          Error := some (Checker.Run.failedMsg checkName err), ErrorString := err,
          AsExpected := false, Check := check, response := r } := rfl

theorem record_bad_rcode (checkName : String) (check : Check) (now : Int) (r : Msg)
    (rtt : Duration) (hr : r.Rcode ≠ RcodeSuccess) :
    Checker.Run.record checkName check now (Exchanged.replied r rtt) =
      some
        { Name := checkName, Timestamp := now, RTT := rtt,
          Error := some (Checker.Run.invalidMsg checkName),
          ErrorString := Checker.Run.invalidMsg checkName,
          AsExpected := false, Check := check, response := some r } := by
  simp [Checker.Run.record, hr]

theorem record_success (checkName : String) (check : Check) (now : Int) (r : Msg)
    (rtt : Duration) (hr : r.Rcode = RcodeSuccess) :
    Checker.Run.record checkName check now (Exchanged.replied r rtt) =
      match verifyExpectation.nilable check.Expect.AnswerSection r.Answer with
      | none => none
      | some ansOk =>
        match verifyExpectation.nilable check.Expect.AuthoritySection r.Ns with
        | none => none
        | some authOk =>
          match verifyExpectation.nilable check.Expect.AdditionalSection r.Extra with
          | none => none
          | some addOk =>
            some
              { Name := checkName, Timestamp := now, RTT := rtt, Error := none, ErrorString := "",
                AsExpected := ansOk && authOk && addOk, Check := check, response := some r } := by
  simp [Checker.Run.record, hr]

theorem record_name_check (checkName : String) (check : Check) (now : Int) (x : Exchanged)
    (res : CheckResult) (h : Checker.Run.record checkName check now x = some res) :
    res.Name = checkName ∧ res.Check = check := by
  cases x with
  | failed r rtt err =>
    rw [record_failed] at h
    simp only [Option.some.injEq] at h
    subst h
    exact ⟨rfl, rfl⟩
  | replied r rtt =>
    by_cases hr : r.Rcode = RcodeSuccess
    · rw [record_success _ _ _ _ _ hr] at h
      cases h1 : verifyExpectation.nilable check.Expect.AnswerSection r.Answer with
      | none => rw [h1] at h; cases h
      | some a =>
        cases h2 : verifyExpectation.nilable check.Expect.AuthoritySection r.Ns with
        | none => rw [h1, h2] at h; cases h
        | some b =>
          cases h3 : verifyExpectation.nilable check.Expect.AdditionalSection r.Extra with
          | none => rw [h1, h2, h3] at h; cases h
          | some c =>
            rw [h1, h2, h3] at h
            simp only [Option.some.injEq] at h
            subst h
            exact ⟨rfl, rfl⟩
    · rw [record_bad_rcode _ _ _ _ _ hr] at h
      simp only [Option.some.injEq] at h
      subst h
      exact ⟨rfl, rfl⟩

theorem loop_out {W : Type} (env : Env W) (lib : Lib) (checks : List (String × Check)) :
    ∀ (w : W) (client : Client) (out : List CheckResult),
      Checker.Run.loop env lib w client out checks =
        (Checker.Run.loop env lib w client [] checks).map (fun rs => out ++ rs) := by
  induction checks with
  | nil => intro w client out; simp [Checker.Run.loop]
  | cons p rest ih =>
    intro w client out
    obtain ⟨checkName, check⟩ := p
    simp only [Checker.Run.loop]
    cases (Checker.Run.body env lib w client checkName check).1 with
    | none => rfl
    | some result =>
      simp only []
      rw [ih _ _ (out ++ [result]), ih _ _ ([] ++ [result])]
      cases Checker.Run.loop env lib (Checker.Run.body env lib w client checkName check).2.1
          (Checker.Run.body env lib w client checkName check).2.2 [] rest with
      | none => rfl
      | some rs => simp

theorem loop_entries {W : Type} (env : Env W) (lib : Lib) (checks : List (String × Check)) :
    ∀ (w : W) (client : Client) (results : List CheckResult),
      Checker.Run.loop env lib w client [] checks = some results →
        results.map (fun r => (r.Name, r.Check)) = checks := by
  induction checks with
  | nil =>
    intro w client results h
    simp only [Checker.Run.loop, Option.some.injEq] at h
    subst h
    rfl
  | cons p rest ih =>
    intro w client results h
    obtain ⟨checkName, check⟩ := p
    simp only [Checker.Run.loop] at h
    cases hb : (Checker.Run.body env lib w client checkName check).1 with
    | none => rw [hb] at h; cases h
    | some result =>
      rw [hb] at h
      simp only [] at h
      rw [loop_out] at h
      cases hl : Checker.Run.loop env lib (Checker.Run.body env lib w client checkName check).2.1
          (Checker.Run.body env lib w client checkName check).2.2 [] rest with
      | none => rw [hl] at h; cases h
      | some rs =>
        rw [hl] at h
        simp only [Option.map_some', Option.some.injEq, List.nil_append] at h
        subst h
        rw [body_fst] at hb
        obtain ⟨hn, hc⟩ := record_name_check _ _ _ _ _ hb
        simp [hn, hc, ih _ _ rs hl]

theorem record_total (checkName : String) (check : Check) (now : Int) (x : Exchanged)
    (h : ∀ e ∈ check.Expect.AnswerSection ++ check.Expect.AuthoritySection ++
      check.Expect.AdditionalSection, e ≠ none) :
    ∃ res, Checker.Run.record checkName check now x = some res := by
  cases x with
  | failed r rtt err => exact ⟨_, record_failed _ _ _ _ _ _⟩
  | replied r rtt =>
    by_cases hr : r.Rcode = RcodeSuccess
    · obtain ⟨a, ha⟩ := nilable_total check.Expect.AnswerSection r.Answer
        (fun e he => h e (by simp [he]))
      obtain ⟨b, hb⟩ := nilable_total check.Expect.AuthoritySection r.Ns
        (fun e he => h e (by simp [he]))
      obtain ⟨c, hc⟩ := nilable_total check.Expect.AdditionalSection r.Extra
        (fun e he => h e (by simp [he]))
      rw [record_success _ _ _ _ _ hr, ha, hb, hc]
      exact ⟨_, rfl⟩
    · exact ⟨_, record_bad_rcode _ _ _ _ _ hr⟩

theorem loop_total {W : Type} (env : Env W) (lib : Lib) (checks : List (String × Check))
    (h : ∀ p ∈ checks, ∀ e ∈ p.2.Expect.AnswerSection ++ p.2.Expect.AuthoritySection ++
      p.2.Expect.AdditionalSection, e ≠ none) :
    ∀ (w : W) (client : Client) (out : List CheckResult),
      ∃ results, Checker.Run.loop env lib w client out checks = some results := by
  induction checks with
  | nil => intro w client out; exact ⟨out, rfl⟩
  | cons p rest ih =>
    intro w client out
    obtain ⟨checkName, check⟩ := p
    obtain ⟨res, hres⟩ := record_total checkName check (env.Now w).1
      (Checker.Run.exchange env lib w client check).1 (h (checkName, check) (List.mem_cons_self _ _))
    rw [← body_fst] at hres
    simp only [Checker.Run.loop, hres]
    exact ih (fun q hq => h q (List.mem_cons_of_mem _ hq)) _ _ _

theorem run_results_without_nil {W : Type} (env : Env W) (lib : Lib) (w : W) (c : Checker)
    (h : ∀ p ∈ c.Checks, ∀ e ∈ p.2.Expect.AnswerSection ++ p.2.Expect.AuthoritySection ++
      p.2.Expect.AdditionalSection, e ≠ none) :
    ∃ results, Checker.Run env lib w c = some results ∧
      results.map (fun r => (r.Name, r.Check)) = c.Checks := by
  obtain ⟨results, hr⟩ := loop_total env lib c.Checks h w Client.new []
  exact ⟨results, hr, loop_entries env lib c.Checks w Client.new results hr⟩

/-! ## Claims on `Checker.Run` -/

/-- C2: a check produces a result that is `OK()` exactly when its exchange
returned a message without an error, the response code is success and the
three sections verify; a result produced for such a response records no error
and has as `AsExpected` the conjunction of the three verifications.  For a
check whose expected sections hold records only, a result is always produced,
and this reads on `verifyExpectation` itself. -/
theorem run_ok_iff {W : Type} (env : Env W) (lib : Lib) (w : W) (client : Client)
    (checkName : String) (check : Check) :
    ((∃ res, (Checker.Run.body env lib w client checkName check).1 = some res ∧ res.OK = true) ↔
        ∃ r rtt, (Checker.Run.exchange env lib w client check).1 = Exchanged.replied r rtt ∧
          r.Rcode = RcodeSuccess ∧
          verifyExpectation.nilable check.Expect.AnswerSection r.Answer = some true ∧
          verifyExpectation.nilable check.Expect.AuthoritySection r.Ns = some true ∧
          verifyExpectation.nilable check.Expect.AdditionalSection r.Extra = some true) ∧
      (∀ res, (Checker.Run.body env lib w client checkName check).1 = some res →
        ∀ r rtt, (Checker.Run.exchange env lib w client check).1 = Exchanged.replied r rtt →
          r.Rcode = RcodeSuccess →
          res.Error = none ∧
            ∃ ansOk authOk addOk,
              verifyExpectation.nilable check.Expect.AnswerSection r.Answer = some ansOk ∧
              verifyExpectation.nilable check.Expect.AuthoritySection r.Ns = some authOk ∧
              verifyExpectation.nilable check.Expect.AdditionalSection r.Extra = some addOk ∧
              res.AsExpected = (ansOk && authOk && addOk)) ∧
      ∀ ans auth add : List RR,
        check.Expect =
            { AnswerSection := ans.map some, AuthoritySection := auth.map some,
              AdditionalSection := add.map some } →
          ∃ res, (Checker.Run.body env lib w client checkName check).1 = some res ∧
            (res.OK = true ↔
              ∃ r rtt, (Checker.Run.exchange env lib w client check).1 = Exchanged.replied r rtt ∧
                r.Rcode = RcodeSuccess ∧
                verifyExpectation ans r.Answer = true ∧
                verifyExpectation auth r.Ns = true ∧
                verifyExpectation add r.Extra = true) ∧
            ∀ r rtt, (Checker.Run.exchange env lib w client check).1 = Exchanged.replied r rtt →
              r.Rcode = RcodeSuccess →
              res.Error = none ∧
                res.AsExpected =
                  (verifyExpectation ans r.Answer && verifyExpectation auth r.Ns &&
                    verifyExpectation add r.Extra) := by
  rw [body_fst]
  generalize (Checker.Run.exchange env lib w client check).1 = x
  cases x with
  | failed r rtt err =>
    rw [record_failed]
    refine ⟨⟨?_, ?_⟩, ?_, ?_⟩
    · rintro ⟨res, hres, hok⟩
      simp only [Option.some.injEq] at hres
      subst hres
      simp [CheckResult.OK] at hok
    · rintro ⟨r1, rtt1, h, _⟩
      cases h
    · intro res _ r1 rtt1 h
      cases h
    · intro ans auth add _
      exact ⟨_, rfl, by simp [CheckResult.OK], fun r1 rtt1 h => by cases h⟩
  | replied r rtt =>
    by_cases hr : r.Rcode = RcodeSuccess
    · rw [record_success _ _ _ _ _ hr]
      refine ⟨⟨?_, ?_⟩, ?_, ?_⟩
      · rintro ⟨res, hres, hok⟩
        refine ⟨r, rtt, rfl, hr, ?_⟩
        cases h1 : verifyExpectation.nilable check.Expect.AnswerSection r.Answer with
        | none => rw [h1] at hres; cases hres
        | some a =>
          cases h2 : verifyExpectation.nilable check.Expect.AuthoritySection r.Ns with
          | none => rw [h1, h2] at hres; cases hres
          | some b =>
            cases h3 : verifyExpectation.nilable check.Expect.AdditionalSection r.Extra with
            | none => rw [h1, h2, h3] at hres; cases hres
            | some c =>
              rw [h1, h2, h3] at hres
              simp only [Option.some.injEq] at hres
              subst hres
              simp only [CheckResult.OK, Bool.and_eq_true] at hok
              simp [hok.2.1.1, hok.2.1.2, hok.2.2]
      · rintro ⟨r1, rtt1, h, _, h1, h2, h3⟩
        cases h
        rw [h1, h2, h3]
        exact ⟨_, rfl, by simp [CheckResult.OK]⟩
      · intro res hres r1 rtt1 h _
        cases h
        cases h1 : verifyExpectation.nilable check.Expect.AnswerSection r.Answer with
        | none => rw [h1] at hres; cases hres
        | some a =>
          cases h2 : verifyExpectation.nilable check.Expect.AuthoritySection r.Ns with
          | none => rw [h1, h2] at hres; cases hres
          | some b =>
            cases h3 : verifyExpectation.nilable check.Expect.AdditionalSection r.Extra with
            | none => rw [h1, h2, h3] at hres; cases hres
            | some c =>
              rw [h1, h2, h3] at hres
              simp only [Option.some.injEq] at hres
              subst hres
              exact ⟨rfl, a, b, c, rfl, rfl, rfl, rfl⟩
      · intro ans auth add he
        rw [he]
        simp only [nilable_map_some]
        refine ⟨_, rfl, ?_, ?_⟩
        · constructor
          · intro hok
            simp only [CheckResult.OK, Bool.and_eq_true] at hok
            exact ⟨r, rtt, rfl, hr, hok.2.1.1, hok.2.1.2, hok.2.2⟩
          · rintro ⟨r1, rtt1, h, _, h1, h2, h3⟩
            cases h
            simp [CheckResult.OK, h1, h2, h3]
        · intro r1 rtt1 h _
          cases h
          exact ⟨rfl, rfl⟩
    · rw [record_bad_rcode _ _ _ _ _ hr]
      refine ⟨⟨?_, ?_⟩, ?_, ?_⟩
      · rintro ⟨res, hres, hok⟩
        simp only [Option.some.injEq] at hres
        subst hres
        simp [CheckResult.OK] at hok
      · rintro ⟨r1, rtt1, h, hr1, _⟩
        cases h
        exact absurd hr1 hr
      · intro res _ r1 rtt1 h hr1
        cases h
        exact absurd hr1 hr
      · intro ans auth add _
        refine ⟨_, rfl, ?_, ?_⟩
        · constructor
          · intro hok
            simp [CheckResult.OK] at hok
          · rintro ⟨r1, rtt1, h, hr1, _⟩
            cases h
            exact absurd hr1 hr
        · intro r1 rtt1 h hr1
          cases h
          exact absurd hr1 hr

/-- C4, at the input where the code breaks it: the empty expectation string
compiles without an error to a check holding the nil record; on a successful
reply with an answer the verification of that check panics, and the run that
had already produced the result of the first check returns nothing. -/
theorem run_nil_record_panics :
    NewChecker goLib [("www", exampleConfig), ("blank", blankConfig)] =
        ({ Checks := [("www", exampleCheck), ("blank", blankCheck)] }, none) ∧
      (Checker.Run (replyEnv 0) goLib 0 { Checks := [("www", exampleCheck)] }).map List.length =
        some 1 ∧
      Checker.Run.record "blank" blankCheck 2 (Exchanged.replied (exampleReply 0) 1000000) = none ∧
      Checker.Run (replyEnv 0) goLib 0 { Checks := [("www", exampleCheck), ("blank", blankCheck)] } =
        none := by
  refine ⟨rfl, ?_, rfl, ?_⟩ <;> decide

/-- C5: when the exchange of a check returns an error, a result is produced; it
carries an error with a non-empty message, `ErrorString` is the text of the
exchange's error (non-empty whenever that text is), `AsExpected` is false and
`OK()` is false, whatever the check expects. -/
theorem run_exchange_error {W : Type} (env : Env W) (lib : Lib) (w : W) (client : Client)
    (checkName : String) (check : Check) (r : Option Msg) (rtt : Duration) (err : String)
    (hx : (Checker.Run.exchange env lib w client check).1 = Exchanged.failed r rtt err) :
    ∃ res, (Checker.Run.body env lib w client checkName check).1 = some res ∧
      res.Error = some (Checker.Run.failedMsg checkName err) ∧
      Checker.Run.failedMsg checkName err ≠ "" ∧
      res.ErrorString = err ∧
      (err ≠ "" → res.ErrorString ≠ "") ∧
      res.AsExpected = false ∧
      res.OK = false := by
  rw [body_fst, hx, record_failed]
  exact ⟨_, rfl, rfl, failedMsg_ne_empty _ _, rfl, fun h => h, rfl, by simp [CheckResult.OK]⟩

/-- Witness of C5: a timeout on the example check. -/
theorem run_exchange_error_witness :
    ∃ res, (Checker.Run.body timeoutEnv goLib 0 Client.new "www" exampleCheck).1 = some res ∧
      res.Error = some (Checker.Run.failedMsg "www" "read udp 192.0.2.53:53: i/o timeout") ∧
      Checker.Run.failedMsg "www" "read udp 192.0.2.53:53: i/o timeout" ≠ "" ∧
      res.ErrorString = "read udp 192.0.2.53:53: i/o timeout" ∧
      ("read udp 192.0.2.53:53: i/o timeout" ≠ "" → res.ErrorString ≠ "") ∧
      res.AsExpected = false ∧
      res.OK = false :=
  run_exchange_error timeoutEnv goLib 0 Client.new "www" exampleCheck none 0
    "read udp 192.0.2.53:53: i/o timeout" rfl

/-- C6, as the claim states it, fails: the library returned a message together
with its error, and the result of the run holds that message. -/
theorem run_error_response_counterexample :
    (Checker.Run.exchange garbledEnv goLib 0 Client.new exampleCheck).1 =
        Exchanged.failed (some (exampleReply 0)) 1000000 "dns: overflow unpacking uint16" ∧
      (Checker.Run garbledEnv goLib 0 { Checks := [("www", exampleCheck)] }).map
        (List.map CheckResult.response) = some [some (exampleReply 0)] ∧
      (Checker.Run.body garbledEnv goLib 0 Client.new "www" exampleCheck).1.map
        CheckResult.response = some (some (exampleReply 0)) ∧
      (some (exampleReply 0) : Option Msg) ≠ none :=
  ⟨rfl, rfl, rfl, by simp⟩

/-- C6, amended: when the exchange of a check returns an error, a result is
produced and the response stored in it is the message value the exchange
returned beside the error; it is absent exactly when the exchange returned
none. -/
theorem run_error_response {W : Type} (env : Env W) (lib : Lib) (w : W) (client : Client)
    (checkName : String) (check : Check) (r : Option Msg) (rtt : Duration) (err : String)
    (hx : (Checker.Run.exchange env lib w client check).1 = Exchanged.failed r rtt err) :
    ∃ res, (Checker.Run.body env lib w client checkName check).1 = some res ∧
      res.response = r ∧ (res.response = none ↔ r = none) := by
  rw [body_fst, hx, record_failed]
  exact ⟨_, rfl, rfl, Iff.rfl⟩

/-- Witness of the amended C6: after a timeout without a message the response is absent. -/
theorem run_error_response_witness :
    ∃ res, (Checker.Run.body timeoutEnv goLib 0 Client.new "www" exampleCheck).1 = some res ∧
      res.response = none ∧ (res.response = none ↔ (none : Option Msg) = none) :=
  run_error_response timeoutEnv goLib 0 Client.new "www" exampleCheck none 0
    "read udp 192.0.2.53:53: i/o timeout" rfl

/-- C7: when the exchange returns a message whose response code is not
success, a result is produced; it carries the invalid-answer error, its
non-empty message is also the `ErrorString`, `AsExpected` is false and `OK()`
is false, whatever records the response holds. -/
theorem run_bad_rcode {W : Type} (env : Env W) (lib : Lib) (w : W) (client : Client)
    (checkName : String) (check : Check) (r : Msg) (rtt : Duration)
    (hx : (Checker.Run.exchange env lib w client check).1 = Exchanged.replied r rtt)
    (hr : r.Rcode ≠ RcodeSuccess) :
    ∃ res, (Checker.Run.body env lib w client checkName check).1 = some res ∧
      res.Error = some (Checker.Run.invalidMsg checkName) ∧
      res.ErrorString = Checker.Run.invalidMsg checkName ∧
      res.ErrorString ≠ "" ∧
      res.AsExpected = false ∧
      res.OK = false := by
  rw [body_fst, hx, record_bad_rcode _ _ _ _ _ hr]
  exact ⟨_, rfl, rfl, rfl, invalidMsg_ne_empty checkName, rfl, by simp [CheckResult.OK]⟩

/-- Witness of C7: the response code is 3 (name error) although the answer
section holds the expected record, which alone would verify. -/
theorem run_bad_rcode_witness :
    verifyExpectation.nilable exampleCheck.Expect.AnswerSection (exampleReply 3).Answer =
        some true ∧
      ∃ res, (Checker.Run.body (replyEnv 3) goLib 0 Client.new "www" exampleCheck).1 = some res ∧
        res.Error = some (Checker.Run.invalidMsg "www") ∧
        res.ErrorString = Checker.Run.invalidMsg "www" ∧
        res.ErrorString ≠ "" ∧
        res.AsExpected = false ∧
        res.OK = false :=
  ⟨by decide,
    run_bad_rcode (replyEnv 3) goLib 0 Client.new "www" exampleCheck (exampleReply 3) 1000000 rfl
      (by decide)⟩

/-- C8, as the claim states it, fails: an exchange error whose text is the
invalid-answer message of the check leaves the same `ErrorString` in the
result as a response code other than success does. -/
theorem run_error_strings_counterexample :
    (Checker.Run.body (replyEnv 3) goLib 0 Client.new "www" exampleCheck).1.map
        CheckResult.ErrorString = some "ERROR: invalid answer for check 'www'\n" ∧
      (Checker.Run.body
          (scriptedEnv (fun _ => Exchanged.failed none 0 "ERROR: invalid answer for check 'www'\n"))
          goLib 0 Client.new "www" exampleCheck).1.map CheckResult.ErrorString =
        some "ERROR: invalid answer for check 'www'\n" :=
  ⟨by decide, by decide⟩

/-- C8, amended: for one check name, the error recorded for a response code
other than success and the error recorded for a failed exchange have different
messages, whatever the text of the exchange's error.  The `ErrorString` of the
former result is its error's message, that of the latter is the text of the
exchange's error, so the two `ErrorString` values are equal exactly when that
text is the invalid-answer message of the check. -/
theorem run_error_messages_differ (checkName : String) (check : Check) (now1 now2 : Int)
    (r : Msg) (rtt1 : Duration) (m : Option Msg) (rtt2 : Duration) (err : String)
    (hr : r.Rcode ≠ RcodeSuccess) :
    ∃ res1 res2,
      Checker.Run.record checkName check now1 (Exchanged.replied r rtt1) = some res1 ∧
      Checker.Run.record checkName check now2 (Exchanged.failed m rtt2 err) = some res2 ∧
      res1.Error = some (Checker.Run.invalidMsg checkName) ∧
      res1.ErrorString = Checker.Run.invalidMsg checkName ∧
      res2.Error = some (Checker.Run.failedMsg checkName err) ∧
      res2.ErrorString = err ∧
      Checker.Run.invalidMsg checkName ≠ Checker.Run.failedMsg checkName err ∧
      res1.Error ≠ res2.Error ∧
      (res1.ErrorString = res2.ErrorString ↔ err = Checker.Run.invalidMsg checkName) := by
  rw [record_bad_rcode _ _ _ _ _ hr, record_failed]
  have hne := invalidMsg_ne_failedMsg checkName err
  refine ⟨_, _, rfl, rfl, rfl, rfl, rfl, rfl, hne, ?_, ?_⟩
  · simpa using hne
  · exact ⟨fun h => h.symm, fun h => h.symm⟩

/-- Witness of the amended C8: a name error beside a timeout, for the check `www`. -/
theorem run_error_messages_differ_witness :
    ∃ res1 res2,
      Checker.Run.record "www" exampleCheck 0 (Exchanged.replied (exampleReply 3) 1000000) =
        some res1 ∧
      Checker.Run.record "www" exampleCheck 7 (Exchanged.failed none 0 "i/o timeout") = some res2 ∧
      res1.Error = some (Checker.Run.invalidMsg "www") ∧
      res1.ErrorString = Checker.Run.invalidMsg "www" ∧
      res2.Error = some (Checker.Run.failedMsg "www" "i/o timeout") ∧
      res2.ErrorString = "i/o timeout" ∧
      Checker.Run.invalidMsg "www" ≠ Checker.Run.failedMsg "www" "i/o timeout" ∧
      res1.Error ≠ res2.Error ∧
      (res1.ErrorString = res2.ErrorString ↔ "i/o timeout" = Checker.Run.invalidMsg "www") :=
  run_error_messages_differ "www" exampleCheck 0 7 (exampleReply 3) 1000000 none 0 "i/o timeout"
    (by decide)

/-! ## Lemmas on `NewChecker` -/

theorem parseSection_error (lib : Lib) (es : List String) :
    ∀ (sec : List (Option RR)) (err : String),
      NewChecker.parseSection lib sec es = Except.error err →
        ∃ e ∈ es, lib.NewRR e = Except.error err := by
  induction es with
  | nil => intro sec err h; simp [NewChecker.parseSection] at h
  | cons e rest ih =>
    intro sec err h
    simp only [NewChecker.parseSection] at h
    cases hn : lib.NewRR e with
    | error e1 =>
      rw [hn] at h
      simp only [Except.error.injEq] at h
      exact ⟨e, List.mem_cons_self _ _, by rw [hn, h]⟩
    | ok rr =>
      rw [hn] at h
      obtain ⟨e2, hm, he⟩ := ih _ _ h
      exact ⟨e2, List.mem_cons_of_mem _ hm, he⟩

theorem parseSection_ok (lib : Lib) (es : List String)
    (hall : ∀ e ∈ es, ∃ rr, lib.NewRR e = Except.ok rr) :
    ∀ sec : List (Option RR), ∃ out, NewChecker.parseSection lib sec es = Except.ok out := by
  induction es with
  | nil => intro sec; exact ⟨sec, rfl⟩
  | cons e rest ih =>
    intro sec
    obtain ⟨rr, hrr⟩ := hall e (List.mem_cons_self _ _)
    simp only [NewChecker.parseSection, hrr]
    exact ih (fun e1 h1 => hall e1 (List.mem_cons_of_mem _ h1)) _

theorem parseSection_fails (lib : Lib) (es : List String)
    (hbad : ∃ e ∈ es, ∃ err, lib.NewRR e = Except.error err) :
    ∀ sec : List (Option RR), ∃ err, NewChecker.parseSection lib sec es = Except.error err := by
  induction es with
  | nil => obtain ⟨e, he, _⟩ := hbad; simp at he
  | cons e rest ih =>
    intro sec
    simp only [NewChecker.parseSection]
    cases hn : lib.NewRR e with
    | error e1 => exact ⟨e1, rfl⟩
    | ok rr =>
      obtain ⟨e2, hm, err, he⟩ := hbad
      rcases List.mem_cons.1 hm with h | h
      · rw [h, hn] at he; cases he
      · exact ih ⟨e2, h, err, he⟩ _

theorem set_fresh {α : Type} (m : GoMap α) (k : String) (v : α) (hk : k ∉ m.map Prod.fst) :
    GoMap.set m k v = m ++ [(k, v)] := by
  induction m with
  | nil => rfl
  | cons p rest ih =>
    obtain ⟨k0, v0⟩ := p
    simp only [List.map_cons, List.mem_cons, not_or] at hk
    have hne : ¬ k0 = k := fun h => hk.1 h.symm
    simp [GoMap.set, hne, ih hk.2]

theorem compile_error (lib : Lib) (cConfig : CheckConfig) (d5 : Duration) (err : String)
    (h5 : lib.ParseDuration "5s" = Except.ok d5)
    (h : NewChecker.compile lib cConfig = Except.error err) :
    cConfig.RejectedWith lib err := by
  unfold NewChecker.compile at h
  cases h1 : NewChecker.parseSection lib [] cConfig.Expect.AnswerSection with
  | error e1 =>
    rw [h1] at h
    simp only [Except.error.injEq] at h
    obtain ⟨e, hm, he⟩ := parseSection_error lib _ _ _ h1
    exact Or.inl ⟨e, by simp [CheckConfig.expectStrings, hm], by rw [he, h]⟩
  | ok ansSec =>
    rw [h1] at h
    cases h2 : NewChecker.parseSection lib [] cConfig.Expect.AuthoritySection with
    | error e2 =>
      rw [h2] at h
      simp only [Except.error.injEq] at h
      obtain ⟨e, hm, he⟩ := parseSection_error lib _ _ _ h2
      exact Or.inl ⟨e, by simp [CheckConfig.expectStrings, hm], by rw [he, h]⟩
    | ok authSec =>
      rw [h2] at h
      cases h3 : NewChecker.parseSection lib [] cConfig.Expect.AdditionalSection with
      | error e3 =>
        rw [h3] at h
        simp only [Except.error.injEq] at h
        obtain ⟨e, hm, he⟩ := parseSection_error lib _ _ _ h3
        exact Or.inl ⟨e, by simp [CheckConfig.expectStrings, hm], by rw [he, h]⟩
      | ok addSec =>
        rw [h3] at h
        by_cases ht : cConfig.ResolverTimeout = ""
        · simp [ht, h5] at h
        · simp only [ht, if_false] at h
          cases h4 : lib.ParseDuration cConfig.ResolverTimeout with
          | error e4 =>
            rw [h4] at h
            simp only [Except.error.injEq] at h
            exact Or.inr ⟨ht, by rw [h4, h]⟩
          | ok d => rw [h4] at h; simp at h

theorem compile_ok (lib : Lib) (cConfig : CheckConfig) (d : Duration)
    (hparse : ∀ e ∈ cConfig.expectStrings, ∃ rr, lib.NewRR e = Except.ok rr)
    (ht : lib.ParseDuration (if cConfig.ResolverTimeout = "" then "5s" else cConfig.ResolverTimeout) =
      Except.ok d) :
    ∃ check, NewChecker.compile lib cConfig = Except.ok check ∧ check.ResolverTimeout = d := by
  obtain ⟨ansSec, h1⟩ := parseSection_ok lib cConfig.Expect.AnswerSection
    (fun e he => hparse e (by simp [CheckConfig.expectStrings, he])) []
  obtain ⟨authSec, h2⟩ := parseSection_ok lib cConfig.Expect.AuthoritySection
    (fun e he => hparse e (by simp [CheckConfig.expectStrings, he])) []
  obtain ⟨addSec, h3⟩ := parseSection_ok lib cConfig.Expect.AdditionalSection
    (fun e he => hparse e (by simp [CheckConfig.expectStrings, he])) []
  unfold NewChecker.compile
  rw [h1, h2, h3]
  simp only [ht]
  exact ⟨_, rfl, rfl⟩

theorem compile_fails (lib : Lib) (cConfig : CheckConfig)
    (hrej : ∃ err, cConfig.RejectedWith lib err) :
    ∃ err, NewChecker.compile lib cConfig = Except.error err := by
  unfold NewChecker.compile
  cases h1 : NewChecker.parseSection lib [] cConfig.Expect.AnswerSection with
  | error e1 => exact ⟨e1, rfl⟩
  | ok ansSec =>
    cases h2 : NewChecker.parseSection lib [] cConfig.Expect.AuthoritySection with
    | error e2 => exact ⟨e2, rfl⟩
    | ok authSec =>
      cases h3 : NewChecker.parseSection lib [] cConfig.Expect.AdditionalSection with
      | error e3 => exact ⟨e3, rfl⟩
      | ok addSec =>
        obtain ⟨err, hr⟩ := hrej
        rcases hr with ⟨e, hm, he⟩ | ⟨ht, he⟩
        · exfalso
          simp only [CheckConfig.expectStrings, List.mem_append] at hm
          rcases hm with (hm | hm) | hm
          · obtain ⟨x, hx⟩ := parseSection_fails lib _ ⟨e, hm, err, he⟩ []
            rw [h1] at hx; cases hx
          · obtain ⟨x, hx⟩ := parseSection_fails lib _ ⟨e, hm, err, he⟩ []
            rw [h2] at hx; cases hx
          · obtain ⟨x, hx⟩ := parseSection_fails lib _ ⟨e, hm, err, he⟩ []
            rw [h3] at hx; cases hx
        · simp only [ht, if_false, he]
          exact ⟨err, rfl⟩

theorem newLoop_error (lib : Lib) (cfgs : List (String × CheckConfig)) :
    ∀ (checks : GoMap Check) (err : String),
      NewChecker.loop lib checks cfgs = Except.error err →
        ∃ p ∈ cfgs, NewChecker.compile lib p.2 = Except.error err := by
  induction cfgs with
  | nil => intro checks err h; simp [NewChecker.loop] at h
  | cons p rest ih =>
    intro checks err h
    obtain ⟨cName, cConfig⟩ := p
    simp only [NewChecker.loop] at h
    cases hc : NewChecker.compile lib cConfig with
    | error e1 =>
      rw [hc] at h
      simp only [Except.error.injEq] at h
      exact ⟨(cName, cConfig), List.mem_cons_self _ _, by rw [hc, h]⟩
    | ok check =>
      rw [hc] at h
      obtain ⟨q, hm, hq⟩ := ih _ _ h
      exact ⟨q, List.mem_cons_of_mem _ hm, hq⟩

theorem newLoop_fails (lib : Lib) (cfgs : List (String × CheckConfig))
    (hbad : ∃ p ∈ cfgs, ∃ err, NewChecker.compile lib p.2 = Except.error err) :
    ∀ checks : GoMap Check, ∃ err, NewChecker.loop lib checks cfgs = Except.error err := by
  induction cfgs with
  | nil => obtain ⟨p, hp, _⟩ := hbad; simp at hp
  | cons p rest ih =>
    intro checks
    obtain ⟨cName, cConfig⟩ := p
    simp only [NewChecker.loop]
    cases hc : NewChecker.compile lib cConfig with
    | error e1 => exact ⟨e1, rfl⟩
    | ok check =>
      obtain ⟨q, hm, err, hq⟩ := hbad
      rcases List.mem_cons.1 hm with h | h
      · rw [h] at hq; simp only at hq; rw [hc] at hq; cases hq
      · exact ih ⟨q, h, err, hq⟩ _

theorem newLoop_ok (lib : Lib) (cfgs : List (String × CheckConfig)) :
    ∀ (checks out : GoMap Check),
      (checks.map Prod.fst ++ cfgs.map Prod.fst).Nodup →
      NewChecker.loop lib checks cfgs = Except.ok out →
        ∃ cs : GoMap Check, out = checks ++ cs ∧
          cfgs.map (fun p => (p.1, NewChecker.compile lib p.2)) =
            cs.map (fun q => (q.1, Except.ok q.2)) := by
  induction cfgs with
  | nil =>
    intro checks out _ h
    simp only [NewChecker.loop, Except.ok.injEq] at h
    exact ⟨[], by simp [h], rfl⟩
  | cons p rest ih =>
    intro checks out hk h
    obtain ⟨cName, cConfig⟩ := p
    simp only [NewChecker.loop] at h
    cases hc : NewChecker.compile lib cConfig with
    | error e1 => rw [hc] at h; cases h
    | ok check =>
      rw [hc] at h
      dsimp only at h
      have hfresh : cName ∉ checks.map Prod.fst := by
        intro hin
        have := List.nodup_append.1 hk
        exact this.2.2 hin (List.mem_cons_self _ _)
      rw [set_fresh checks cName check hfresh] at h
      have hk2 : ((checks ++ [(cName, check)]).map Prod.fst ++ rest.map Prod.fst).Nodup := by
        simpa [List.append_assoc] using hk
      obtain ⟨cs, hout, hcs⟩ := ih _ _ hk2 h
      exact ⟨(cName, check) :: cs, by simp [hout], by simp [hc, hcs]⟩

theorem keys_of_compiled (lib : Lib) (cfgs : List (String × CheckConfig)) (cs : GoMap Check)
    (h : cfgs.map (fun p => (p.1, NewChecker.compile lib p.2)) =
      cs.map (fun q => (q.1, Except.ok q.2))) :
    cs.map Prod.fst = cfgs.map Prod.fst := by
  have := congrArg (List.map Prod.fst) h
  simpa [List.map_map, Function.comp_def] using this.symm

/-- C9: with `5s` accepted by the duration parser and the names of the
configuration distinct, `NewChecker` returns an error exactly when a parser
rejects an expectation string or a non-empty timeout string of some check; the
error is then one a parser gave for such a string and the returned checker has
no checks; without an error the compiled map has the names of the
configuration. -/
theorem newChecker_fails_iff (lib : Lib) (checkConfigs : GoMap CheckConfig) (d5 : Duration)
    (h5 : lib.ParseDuration "5s" = Except.ok d5)
    (hk : (checkConfigs.map Prod.fst).Nodup) :
    ((NewChecker lib checkConfigs).2 ≠ none ↔
        ∃ p ∈ checkConfigs, ∃ err, p.2.RejectedWith lib err) ∧
      (∀ err, (NewChecker lib checkConfigs).2 = some err →
        (∃ p ∈ checkConfigs, p.2.RejectedWith lib err) ∧
          (NewChecker lib checkConfigs).1.Checks = []) ∧
      ((NewChecker lib checkConfigs).2 = none →
        (NewChecker lib checkConfigs).1.Checks.map Prod.fst = checkConfigs.map Prod.fst) := by
  unfold NewChecker
  cases hl : NewChecker.loop lib [] checkConfigs with
  | error e =>
    obtain ⟨p, hp, hc⟩ := newLoop_error lib checkConfigs [] e hl
    have hrej := compile_error lib p.2 d5 e h5 hc
    refine ⟨⟨fun _ => ⟨p, hp, e, hrej⟩, fun _ => by simp⟩, ?_, fun h => by simp at h⟩
    intro err herr
    simp only [Option.some.injEq] at herr
    subst herr
    exact ⟨⟨p, hp, hrej⟩, rfl⟩
  | ok checks =>
    refine ⟨⟨fun h => by simp at h, ?_⟩, fun err h => by simp at h, fun _ => ?_⟩
    · rintro ⟨p, hp, err, hrej⟩
      obtain ⟨e1, h1⟩ := compile_fails lib p.2 ⟨err, hrej⟩
      obtain ⟨e2, h2⟩ := newLoop_fails lib checkConfigs ⟨p, hp, e1, h1⟩ []
      rw [hl] at h2
      cases h2
    · obtain ⟨cs, hout, hcs⟩ := newLoop_ok lib checkConfigs [] checks (by simpa using hk) hl
      simp only [List.nil_append] at hout
      subst hout
      exact keys_of_compiled lib checkConfigs checks hcs

/-- Witness of C9: the second of two configurations has a malformed
expectation; `NewChecker` returns the record parser's error and no checks. -/
theorem newChecker_fails_iff_witness :
    NewChecker goLib [("www", exampleConfig), ("org", brokenConfig)] =
        ({ Checks := [] }, some "dns: bad record: \"example.org. 300 IN\"") ∧
      (((NewChecker goLib [("www", exampleConfig), ("org", brokenConfig)]).2 ≠ none ↔
          ∃ p ∈ [("www", exampleConfig), ("org", brokenConfig)],
            ∃ err, p.2.RejectedWith goLib err) ∧
        (∀ err, (NewChecker goLib [("www", exampleConfig), ("org", brokenConfig)]).2 = some err →
          (∃ p ∈ [("www", exampleConfig), ("org", brokenConfig)], p.2.RejectedWith goLib err) ∧
            (NewChecker goLib [("www", exampleConfig), ("org", brokenConfig)]).1.Checks = []) ∧
        ((NewChecker goLib [("www", exampleConfig), ("org", brokenConfig)]).2 = none →
          (NewChecker goLib [("www", exampleConfig), ("org", brokenConfig)]).1.Checks.map Prod.fst =
            [("www", exampleConfig), ("org", brokenConfig)].map Prod.fst)) :=
  ⟨rfl,
    newChecker_fails_iff goLib [("www", exampleConfig), ("org", brokenConfig)] 5000000000
      (by rfl) (by decide)⟩

/-- C10: for a configuration whose expectation strings all parse, with `5s`
parsed as five seconds, the compiled check has `ResolverTimeout` five seconds
when the timeout string is empty and the parsed duration of the string when
it is non-empty and valid; whenever `NewChecker` succeeds on a map holding the
configuration, that compiled check is the one stored under its name. -/
theorem newChecker_timeout (lib : Lib) (cConfig : CheckConfig)
    (h5 : lib.ParseDuration "5s" = Except.ok (5 * Second))
    (hparse : ∀ e ∈ cConfig.expectStrings, ∃ rr, lib.NewRR e = Except.ok rr) :
    (cConfig.ResolverTimeout = "" →
        ∃ check, NewChecker.compile lib cConfig = Except.ok check ∧
          check.ResolverTimeout = 5 * Second) ∧
      (∀ d, cConfig.ResolverTimeout ≠ "" →
        lib.ParseDuration cConfig.ResolverTimeout = Except.ok d →
          ∃ check, NewChecker.compile lib cConfig = Except.ok check ∧ check.ResolverTimeout = d) ∧
      ∀ (checkConfigs : GoMap CheckConfig) (cName : String) (check : Check),
        (checkConfigs.map Prod.fst).Nodup → (cName, cConfig) ∈ checkConfigs →
        (NewChecker lib checkConfigs).2 = none →
        NewChecker.compile lib cConfig = Except.ok check →
          ∀ c, (cName, c) ∈ (NewChecker lib checkConfigs).1.Checks ↔ c = check := by
  refine ⟨fun ht => compile_ok lib cConfig _ hparse (by simp [ht, h5]),
    fun d ht hd => compile_ok lib cConfig d hparse (by simp [ht, hd]), ?_⟩
  intro checkConfigs cName check hk hmem hok hc c
  unfold NewChecker at hok ⊢
  cases hl : NewChecker.loop lib [] checkConfigs with
  | error e => rw [hl] at hok; simp at hok
  | ok checks =>
    obtain ⟨cs, hout, hcs⟩ := newLoop_ok lib checkConfigs [] checks (by simpa using hk) hl
    simp only [List.nil_append] at hout
    subst hout
    have hkeys := keys_of_compiled lib checkConfigs checks hcs
    have hin : (cName, check) ∈ checks := by
      have h1 : (cName, NewChecker.compile lib cConfig) ∈
          checkConfigs.map (fun p => (p.1, NewChecker.compile lib p.2)) :=
        List.mem_map.2 ⟨(cName, cConfig), hmem, rfl⟩
      rw [hcs, hc] at h1
      obtain ⟨q, hq, he⟩ := List.mem_map.1 h1
      simp only [Prod.mk.injEq, Except.ok.injEq] at he
      obtain ⟨q1, q2⟩ := q
      simp only at he
      rw [← he.1, ← he.2]
      exact hq
    simp only
    constructor
    · intro hcin
      have hnd : (checks.map Prod.fst).Nodup := by rw [hkeys]; exact hk
      have := List.inj_on_of_nodup_map hnd hcin hin rfl
      exact (Prod.mk.inj this).2
    · intro hceq
      rw [hceq]
      exact hin

/-- Witness of C10: the example configuration gives no timeout and is compiled
with five seconds. -/
theorem newChecker_timeout_witness :
    NewChecker goLib [("www", exampleConfig)] = ({ Checks := [("www", exampleCheck)] }, none) ∧
      exampleCheck.ResolverTimeout = 5000000000 ∧
      ((exampleConfig.ResolverTimeout = "" →
          ∃ check, NewChecker.compile goLib exampleConfig = Except.ok check ∧
            check.ResolverTimeout = 5 * Second) ∧
        (∀ d, exampleConfig.ResolverTimeout ≠ "" →
          goLib.ParseDuration exampleConfig.ResolverTimeout = Except.ok d →
            ∃ check, NewChecker.compile goLib exampleConfig = Except.ok check ∧
              check.ResolverTimeout = d) ∧
        ∀ (checkConfigs : GoMap CheckConfig) (cName : String) (check : Check),
          (checkConfigs.map Prod.fst).Nodup → (cName, exampleConfig) ∈ checkConfigs →
          (NewChecker goLib checkConfigs).2 = none →
          NewChecker.compile goLib exampleConfig = Except.ok check →
            ∀ c, (cName, c) ∈ (NewChecker goLib checkConfigs).1.Checks ↔ c = check) :=
  ⟨rfl, rfl,
    newChecker_timeout goLib exampleConfig rfl (by
      intro e he
      simp only [CheckConfig.expectStrings, exampleConfig, List.append_nil, List.mem_singleton] at he
      subst he
      exact ⟨some exampleRR, rfl⟩)⟩

/-! ## What `NewChecker` compiles -/

theorem parseSection_spec (lib : Lib) (es : List String) :
    ∀ (sec out : List (Option RR)), NewChecker.parseSection lib sec es = Except.ok out →
      ∃ rrs : List (Option RR), out = sec ++ rrs ∧ es.map lib.NewRR = rrs.map Except.ok := by
  induction es with
  | nil =>
    intro sec out h
    simp only [NewChecker.parseSection, Except.ok.injEq] at h
    exact ⟨[], by simp [h], rfl⟩
  | cons e rest ih =>
    intro sec out h
    simp only [NewChecker.parseSection] at h
    cases hn : lib.NewRR e with
    | error e1 => rw [hn] at h; cases h
    | ok rr =>
      rw [hn] at h
      obtain ⟨rrs, hout, hmap⟩ := ih _ _ h
      exact ⟨rr :: rrs, by simp [hout], by simp [hn, hmap]⟩

theorem compile_spec (lib : Lib) (cConfig : CheckConfig) (check : Check)
    (h : NewChecker.compile lib cConfig = Except.ok check) :
    cConfig.Expect.AnswerSection.map lib.NewRR = check.Expect.AnswerSection.map Except.ok ∧
      cConfig.Expect.AuthoritySection.map lib.NewRR =
        check.Expect.AuthoritySection.map Except.ok ∧
      cConfig.Expect.AdditionalSection.map lib.NewRR =
        check.Expect.AdditionalSection.map Except.ok ∧
      lib.ParseDuration (if cConfig.ResolverTimeout = "" then "5s" else cConfig.ResolverTimeout) =
        Except.ok check.ResolverTimeout ∧
      check.Proto = (if cConfig.UseTCP then "tcp" else "udp") ∧
      check.Resolver = cConfig.Resolver ∧
      check.Resolve = cConfig.Resolve ∧
      check.ExpectConfig = cConfig.Expect := by
  unfold NewChecker.compile at h
  cases h1 : NewChecker.parseSection lib [] cConfig.Expect.AnswerSection with
  | error e1 => rw [h1] at h; cases h
  | ok ansSec =>
    rw [h1] at h
    cases h2 : NewChecker.parseSection lib [] cConfig.Expect.AuthoritySection with
    | error e2 => rw [h2] at h; cases h
    | ok authSec =>
      rw [h2] at h
      cases h3 : NewChecker.parseSection lib [] cConfig.Expect.AdditionalSection with
      | error e3 => rw [h3] at h; cases h
      | ok addSec =>
        rw [h3] at h
        dsimp only at h
        cases h4 : lib.ParseDuration
            (if cConfig.ResolverTimeout = "" then "5s" else cConfig.ResolverTimeout) with
        | error e4 => rw [h4] at h; cases h
        | ok d =>
          rw [h4] at h
          simp only [Except.ok.injEq] at h
          subst h
          obtain ⟨r1, ho1, hm1⟩ := parseSection_spec lib _ _ _ h1
          obtain ⟨r2, ho2, hm2⟩ := parseSection_spec lib _ _ _ h2
          obtain ⟨r3, ho3, hm3⟩ := parseSection_spec lib _ _ _ h3
          simp only [List.nil_append] at ho1 ho2 ho3
          subst ho1 ho2 ho3
          exact ⟨hm1, hm2, hm3, rfl, rfl, rfl, rfl, rfl⟩

theorem newChecker_stored (lib : Lib) (checkConfigs : GoMap CheckConfig) (cName : String)
    (cConfig : CheckConfig) (hk : (checkConfigs.map Prod.fst).Nodup)
    (hok : (NewChecker lib checkConfigs).2 = none) (hmem : (cName, cConfig) ∈ checkConfigs) :
    ∃ check, NewChecker.compile lib cConfig = Except.ok check ∧
      ∀ c, (cName, c) ∈ (NewChecker lib checkConfigs).1.Checks ↔ c = check := by
  unfold NewChecker at hok ⊢
  cases hl : NewChecker.loop lib [] checkConfigs with
  | error e => rw [hl] at hok; simp at hok
  | ok checks =>
    obtain ⟨cs, hout, hcs⟩ := newLoop_ok lib checkConfigs [] checks (by simpa using hk) hl
    simp only [List.nil_append] at hout
    subst hout
    have hkeys := keys_of_compiled lib checkConfigs checks hcs
    have h1 : (cName, NewChecker.compile lib cConfig) ∈
        checkConfigs.map (fun p => (p.1, NewChecker.compile lib p.2)) :=
      List.mem_map.2 ⟨(cName, cConfig), hmem, rfl⟩
    rw [hcs] at h1
    obtain ⟨q, hq, he⟩ := List.mem_map.1 h1
    obtain ⟨q1, q2⟩ := q
    simp only [Prod.mk.injEq] at he
    obtain ⟨he1, he2⟩ := he
    subst he1
    refine ⟨q2, he2.symm, fun c => ⟨fun hcin => ?_, fun hceq => by rw [hceq]; exact hq⟩⟩
    have hnd : (checks.map Prod.fst).Nodup := by rw [hkeys]; exact hk
    have := List.inj_on_of_nodup_map hnd hcin hq rfl
    exact (Prod.mk.inj this).2

theorem compile_resolver (lib : Lib) (cConfig : CheckConfig) (a b : String) (check : Check)
    (h : NewChecker.compile lib cConfig = Except.ok check) :
    NewChecker.compile lib { cConfig with Resolver := a, Resolve := b } =
      Except.ok { check with Resolver := a, Resolve := b } := by
  unfold NewChecker.compile at h ⊢
  dsimp only at h ⊢
  cases h1 : NewChecker.parseSection lib [] cConfig.Expect.AnswerSection with
  | error e1 => rw [h1] at h; cases h
  | ok ansSec =>
    rw [h1] at h
    cases h2 : NewChecker.parseSection lib [] cConfig.Expect.AuthoritySection with
    | error e2 => rw [h2] at h; cases h
    | ok authSec =>
      rw [h2] at h
      cases h3 : NewChecker.parseSection lib [] cConfig.Expect.AdditionalSection with
      | error e3 => rw [h3] at h; cases h
      | ok addSec =>
        rw [h3] at h
        dsimp only at h ⊢
        cases h4 : lib.ParseDuration
            (if cConfig.ResolverTimeout = "" then "5s" else cConfig.ResolverTimeout) with
        | error e4 => rw [h4] at h; cases h
        | ok d =>
          rw [h4] at h
          simp only [Except.ok.injEq] at h
          subst h
          rfl

/-! ## Claims on what `NewChecker` compiles -/

/-- C11, as the claim states it, fails: the timeout strings `0` and `-1s`
compile, to a timeout of zero and to a negative one. -/
theorem newChecker_timeout_positive_counterexample :
    NewChecker goLib [("zero", zeroTimeoutConfig), ("neg", negativeTimeoutConfig)] =
        ({ Checks :=
            [("zero", { exampleCheck with ResolverTimeout := 0 }),
              ("neg", { exampleCheck with ResolverTimeout := -1000000000 })] }, none) ∧
      (NewChecker goLib [("zero", zeroTimeoutConfig), ("neg", negativeTimeoutConfig)]).1.Checks.map
          (fun q => decide (0 < q.2.ResolverTimeout)) = [false, false] := by
  exact ⟨rfl, rfl⟩

/-- C11, amended: in a successful `NewChecker` the check stored for a
configuration has as `ResolverTimeout` the duration the parser returns for the
timeout string, `5s` standing in for the empty string.  With the empty string
it is five seconds, hence positive; with a non-empty string it is positive
exactly when the parsed duration is. -/
theorem newChecker_timeout_value (lib : Lib) (checkConfigs : GoMap CheckConfig) (cName : String)
    (cConfig : CheckConfig)
    (h5 : lib.ParseDuration "5s" = Except.ok (5 * Second))
    (hk : (checkConfigs.map Prod.fst).Nodup)
    (hok : (NewChecker lib checkConfigs).2 = none) (hmem : (cName, cConfig) ∈ checkConfigs) :
    ∃ check, (∀ c, (cName, c) ∈ (NewChecker lib checkConfigs).1.Checks ↔ c = check) ∧
      lib.ParseDuration (if cConfig.ResolverTimeout = "" then "5s" else cConfig.ResolverTimeout) =
        Except.ok check.ResolverTimeout ∧
      (cConfig.ResolverTimeout = "" → check.ResolverTimeout = 5 * Second ∧ 0 < check.ResolverTimeout) ∧
      ∀ d, cConfig.ResolverTimeout ≠ "" →
        lib.ParseDuration cConfig.ResolverTimeout = Except.ok d →
          check.ResolverTimeout = d ∧ (0 < check.ResolverTimeout ↔ 0 < d) := by
  obtain ⟨check, hc, hst⟩ := newChecker_stored lib checkConfigs cName cConfig hk hok hmem
  have hsp := (compile_spec lib cConfig check hc).2.2.2.1
  refine ⟨check, hst, hsp, ?_, ?_⟩
  · intro ht
    rw [if_pos ht, h5] at hsp
    simp only [Except.ok.injEq] at hsp
    rw [← hsp]
    exact ⟨rfl, by decide⟩
  · intro d ht hd
    rw [if_neg ht, hd] at hsp
    simp only [Except.ok.injEq] at hsp
    rw [← hsp]
    exact ⟨rfl, Iff.rfl⟩

/-- Witness of the amended C11: the example configuration, without a timeout string. -/
theorem newChecker_timeout_value_witness :
    ∃ check, (∀ c, ("www", c) ∈ (NewChecker goLib [("www", exampleConfig)]).1.Checks ↔ c = check) ∧
      goLib.ParseDuration
          (if exampleConfig.ResolverTimeout = "" then "5s" else exampleConfig.ResolverTimeout) =
        Except.ok check.ResolverTimeout ∧
      (exampleConfig.ResolverTimeout = "" →
        check.ResolverTimeout = 5 * Second ∧ 0 < check.ResolverTimeout) ∧
      ∀ d, exampleConfig.ResolverTimeout ≠ "" →
        goLib.ParseDuration exampleConfig.ResolverTimeout = Except.ok d →
          check.ResolverTimeout = d ∧ (0 < check.ResolverTimeout ↔ 0 < d) :=
  newChecker_timeout_value goLib [("www", exampleConfig)] "www" exampleConfig rfl (by decide) rfl
    (List.mem_cons_self _ _)

/-- C12: in a successful `NewChecker` the check stored for a configuration has
`Proto` equal to `tcp` when the use-TCP flag is set and to `udp` when it is
not; it is never anything else. -/
theorem newChecker_proto (lib : Lib) (checkConfigs : GoMap CheckConfig) (cName : String)
    (cConfig : CheckConfig) (hk : (checkConfigs.map Prod.fst).Nodup)
    (hok : (NewChecker lib checkConfigs).2 = none) (hmem : (cName, cConfig) ∈ checkConfigs) :
    ∃ check, (∀ c, (cName, c) ∈ (NewChecker lib checkConfigs).1.Checks ↔ c = check) ∧
      (cConfig.UseTCP = true → check.Proto = "tcp") ∧
      (cConfig.UseTCP = false → check.Proto = "udp") ∧
      (check.Proto = "tcp" ∨ check.Proto = "udp") := by
  obtain ⟨check, hc, hst⟩ := newChecker_stored lib checkConfigs cName cConfig hk hok hmem
  have hsp := (compile_spec lib cConfig check hc).2.2.2.2.1
  refine ⟨check, hst, ?_, ?_, ?_⟩
  · intro hu; rw [hsp, hu]; rfl
  · intro hu; rw [hsp, hu]; rfl
  · cases hu : cConfig.UseTCP
    · right; rw [hsp, hu]; rfl
    · left; rw [hsp, hu]; rfl

/-- Witness of C12: a map with a UDP and a TCP configuration; the second is looked at. -/
theorem newChecker_proto_witness :
    (NewChecker goLib [("www", exampleConfig), ("tcp", tcpConfig)]).1.Checks.map
        (fun q => (q.1, q.2.Proto)) = [("www", "udp"), ("tcp", "tcp")] ∧
      ∃ check,
        (∀ c, ("tcp", c) ∈ (NewChecker goLib [("www", exampleConfig), ("tcp", tcpConfig)]).1.Checks ↔
          c = check) ∧
        (tcpConfig.UseTCP = true → check.Proto = "tcp") ∧
        (tcpConfig.UseTCP = false → check.Proto = "udp") ∧
        (check.Proto = "tcp" ∨ check.Proto = "udp") :=
  ⟨rfl,
    newChecker_proto goLib [("www", exampleConfig), ("tcp", tcpConfig)] "tcp" tcpConfig
      (by decide) rfl (List.mem_cons_of_mem _ (List.mem_cons_self _ _))⟩

theorem map_ok_length {es : List String} {rrs : List (Option RR)}
    {f : String → Except String (Option RR)}
    (h : es.map f = rrs.map Except.ok) : rrs.length = es.length := by
  have := congrArg List.length h
  simpa using this.symm

/-- C13: in a successful `NewChecker` each expected section of the check
stored for a configuration is the list of records the parser returns for the
strings of the configured section, one by one in the same order, hence of the
same length; an empty configured section gives an empty section. -/
theorem newChecker_sections (lib : Lib) (checkConfigs : GoMap CheckConfig) (cName : String)
    (cConfig : CheckConfig) (hk : (checkConfigs.map Prod.fst).Nodup)
    (hok : (NewChecker lib checkConfigs).2 = none) (hmem : (cName, cConfig) ∈ checkConfigs) :
    ∃ check, (∀ c, (cName, c) ∈ (NewChecker lib checkConfigs).1.Checks ↔ c = check) ∧
      (cConfig.Expect.AnswerSection.map lib.NewRR = check.Expect.AnswerSection.map Except.ok ∧
        cConfig.Expect.AuthoritySection.map lib.NewRR =
          check.Expect.AuthoritySection.map Except.ok ∧
        cConfig.Expect.AdditionalSection.map lib.NewRR =
          check.Expect.AdditionalSection.map Except.ok) ∧
      (check.Expect.AnswerSection.length = cConfig.Expect.AnswerSection.length ∧
        check.Expect.AuthoritySection.length = cConfig.Expect.AuthoritySection.length ∧
        check.Expect.AdditionalSection.length = cConfig.Expect.AdditionalSection.length) ∧
      (cConfig.Expect.AnswerSection = [] → check.Expect.AnswerSection = []) ∧
      (cConfig.Expect.AuthoritySection = [] → check.Expect.AuthoritySection = []) ∧
      (cConfig.Expect.AdditionalSection = [] → check.Expect.AdditionalSection = []) := by
  obtain ⟨check, hc, hst⟩ := newChecker_stored lib checkConfigs cName cConfig hk hok hmem
  obtain ⟨h1, h2, h3, _⟩ := compile_spec lib cConfig check hc
  have l1 := map_ok_length h1
  have l2 := map_ok_length h2
  have l3 := map_ok_length h3
  refine ⟨check, hst, ⟨h1, h2, h3⟩, ⟨l1, l2, l3⟩, ?_, ?_, ?_⟩
  · intro he; rw [he] at l1; exact List.length_eq_zero.1 l1
  · intro he; rw [he] at l2; exact List.length_eq_zero.1 l2
  · intro he; rw [he] at l3; exact List.length_eq_zero.1 l3

/-- Witness of C13: the example configuration, one answer string and two empty sections. -/
theorem newChecker_sections_witness :
    (NewChecker goLib [("www", exampleConfig)]).1.Checks.map (fun q => q.2.Expect) =
        [{ AnswerSection := [some exampleRR], AuthoritySection := [], AdditionalSection := [] }] ∧
      ∃ check, (∀ c, ("www", c) ∈ (NewChecker goLib [("www", exampleConfig)]).1.Checks ↔ c = check) ∧
        (exampleConfig.Expect.AnswerSection.map goLib.NewRR =
            check.Expect.AnswerSection.map Except.ok ∧
          exampleConfig.Expect.AuthoritySection.map goLib.NewRR =
            check.Expect.AuthoritySection.map Except.ok ∧
          exampleConfig.Expect.AdditionalSection.map goLib.NewRR =
            check.Expect.AdditionalSection.map Except.ok) ∧
        (check.Expect.AnswerSection.length = exampleConfig.Expect.AnswerSection.length ∧
          check.Expect.AuthoritySection.length = exampleConfig.Expect.AuthoritySection.length ∧
          check.Expect.AdditionalSection.length = exampleConfig.Expect.AdditionalSection.length) ∧
        (exampleConfig.Expect.AnswerSection = [] → check.Expect.AnswerSection = []) ∧
        (exampleConfig.Expect.AuthoritySection = [] → check.Expect.AuthoritySection = []) ∧
        (exampleConfig.Expect.AdditionalSection = [] → check.Expect.AdditionalSection = []) :=
  ⟨rfl,
    newChecker_sections goLib [("www", exampleConfig)] "www" exampleConfig (by decide) rfl
      (List.mem_cons_self _ _)⟩

/-- C14: in a successful `NewChecker` the check stored for a configuration has
the configured resolver address as `Resolver` and the configured query name as
`Resolve`; neither string is looked at, so the configuration compiles just as
well with any other two strings in their place, the empty string included. -/
theorem newChecker_passthrough (lib : Lib) (checkConfigs : GoMap CheckConfig) (cName : String)
    (cConfig : CheckConfig) (hk : (checkConfigs.map Prod.fst).Nodup)
    (hok : (NewChecker lib checkConfigs).2 = none) (hmem : (cName, cConfig) ∈ checkConfigs) :
    ∃ check, (∀ c, (cName, c) ∈ (NewChecker lib checkConfigs).1.Checks ↔ c = check) ∧
      check.Resolver = cConfig.Resolver ∧
      check.Resolve = cConfig.Resolve ∧
      ∀ a b : String,
        NewChecker.compile lib { cConfig with Resolver := a, Resolve := b } =
          Except.ok { check with Resolver := a, Resolve := b } := by
  obtain ⟨check, hc, hst⟩ := newChecker_stored lib checkConfigs cName cConfig hk hok hmem
  obtain ⟨_, _, _, _, _, hr1, hr2, _⟩ := compile_spec lib cConfig check hc
  exact ⟨check, hst, hr1, hr2, fun a b => compile_resolver lib cConfig a b check hc⟩

/-- Witness of C14: a configuration with an empty resolver address and an empty query name. -/
theorem newChecker_passthrough_witness :
    NewChecker goLib [("blank", { exampleConfig with Resolver := "", Resolve := "" })] =
        ({ Checks := [("blank", { exampleCheck with Resolver := "", Resolve := "" })] }, none) ∧
      ∃ check,
        (∀ c, ("blank", c) ∈
            (NewChecker goLib
              [("blank", { exampleConfig with Resolver := "", Resolve := "" })]).1.Checks ↔
          c = check) ∧
        check.Resolver = ({ exampleConfig with Resolver := "", Resolve := "" } : CheckConfig).Resolver ∧
        check.Resolve = ({ exampleConfig with Resolver := "", Resolve := "" } : CheckConfig).Resolve ∧
        ∀ a b : String,
          NewChecker.compile goLib
              { ({ exampleConfig with Resolver := "", Resolve := "" } : CheckConfig) with
                Resolver := a, Resolve := b } =
            Except.ok { check with Resolver := a, Resolve := b } :=
  ⟨rfl,
    newChecker_passthrough goLib [("blank", { exampleConfig with Resolver := "", Resolve := "" })]
      "blank" { exampleConfig with Resolver := "", Resolve := "" } (by decide) rfl
      (List.mem_cons_self _ _)⟩

/-! ## Claims on the matching rule -/

theorem verify_true_iff (expected observed : List RR) :
    verifyExpectation expected observed = true ↔
      ∀ e ∈ expected, ∃ h ∈ observed, h.String = e.String := by
  induction expected with
  | nil => simp [verifyExpectation]
  | cons e t ih =>
    cases hs : verifyExpectation.scan e observed false with
    | true =>
      have hex := (scan_false_iff e observed).1 hs
      simp [verifyExpectation, hs, ih, hex]
    | false =>
      have hex : ¬ ∃ h ∈ observed, h.String = e.String := fun hx => by
        rw [(scan_false_iff e observed).2 hx] at hs
        cases hs
      simp only [verifyExpectation, hs, List.mem_cons, forall_eq_or_imp]
      constructor
      · intro hf; simp at hf
      · intro hf; exact absurd hf.1 hex

theorem verify_congr (expected expected1 observed observed1 : List RR)
    (he : ∀ x, x ∈ expected1 ↔ x ∈ expected) (ho : ∀ x, x ∈ observed1 ↔ x ∈ observed) :
    verifyExpectation expected1 observed1 = verifyExpectation expected observed := by
  rw [Bool.eq_iff_iff, verify_true_iff, verify_true_iff]
  constructor
  · intro h e hm
    obtain ⟨x, hx, hxe⟩ := h e ((he e).2 hm)
    exact ⟨x, (ho x).1 hx, hxe⟩
  · intro h e hm
    obtain ⟨x, hx, hxe⟩ := h e ((he e).1 hm)
    exact ⟨x, (ho x).2 hx, hxe⟩

/-- C15: `verifyExpectation` does not depend on the order of either sequence:
permuting the expected records and permuting the observed records leaves the
result as it was. -/
theorem verify_perm (expected expected1 observed observed1 : List RR)
    (he : expected.Perm expected1) (ho : observed.Perm observed1) :
    verifyExpectation expected1 observed1 = verifyExpectation expected observed :=
  verify_congr expected expected1 observed observed1 (fun _ => he.mem_iff.symm)
    (fun _ => ho.mem_iff.symm)

/-- Witness of C15: two expected and two observed records, each pair swapped. -/
theorem verify_perm_witness :
    verifyExpectation [exampleRR, exampleAAAA] [exampleAAAA, exampleRR] = true ∧
      verifyExpectation [exampleAAAA, exampleRR] [exampleRR, exampleAAAA] =
        verifyExpectation [exampleRR, exampleAAAA] [exampleAAAA, exampleRR] :=
  ⟨by decide,
    verify_perm [exampleRR, exampleAAAA] [exampleAAAA, exampleRR] [exampleAAAA, exampleRR]
      [exampleRR, exampleAAAA] (List.Perm.swap _ _ _) (List.Perm.swap _ _ _)⟩

/-- C16: when `verifyExpectation expected observed` is true it stays true for
every sequence that holds the observed records with further records inserted
anywhere among them. -/
theorem verify_extra (expected observed observed1 : List RR)
    (hsub : observed.Sublist observed1)
    (hv : verifyExpectation expected observed = true) :
    verifyExpectation expected observed1 = true := by
  rw [verify_true_iff] at hv ⊢
  intro e hm
  obtain ⟨x, hx, hxe⟩ := hv e hm
  exact ⟨x, hsub.subset hx, hxe⟩

/-- Witness of C16: the expected A record, observed beside an unrelated AAAA record. -/
theorem verify_extra_witness :
    verifyExpectation [exampleRR] [exampleRR] = true ∧
      verifyExpectation [exampleRR] [exampleAAAA, exampleRR] = true :=
  ⟨by decide,
    verify_extra [exampleRR] [exampleRR] [exampleAAAA, exampleRR]
      (List.Sublist.cons _ (List.Sublist.refl _)) (by decide)⟩

theorem digit_digitChar (k : Nat) (hk : k < 10) : time.digit (Nat.digitChar k) = k := by
  interval_cases k <;> rfl

theorem number_cons (x : Nat) (c : Char) (s : List Char) :
    zone.number x (c :: s) = zone.number (x * 10 + time.digit c) s := rfl

theorem toDigitsCore_step (fuel n : Nat) (ds : List Char) :
    Nat.toDigitsCore 10 (fuel + 1) n ds =
      if n / 10 = 0 then Nat.digitChar (n % 10) :: ds
      else Nat.toDigitsCore 10 fuel (n / 10) (Nat.digitChar (n % 10) :: ds) := rfl

theorem number_toDigitsCore (fuel : Nat) :
    ∀ (n : Nat) (ds : List Char), n < fuel →
      zone.number 0 (Nat.toDigitsCore 10 fuel n ds) = zone.number n ds := by
  induction fuel with
  | zero => intro n ds h; omega
  | succ fuel ih =>
    intro n ds h
    rw [toDigitsCore_step]
    have hd := digit_digitChar (n % 10) (Nat.mod_lt _ (by decide))
    generalize Nat.digitChar (n % 10) = c at hd ⊢
    by_cases h0 : n / 10 = 0
    · rw [if_pos h0, number_cons, hd]
      congr 1
      omega
    · rw [if_neg h0, ih (n / 10) _ (by omega), number_cons, hd]
      congr 1
      omega

theorem number_toString (n : Nat) : zone.number 0 (toString n).data = n := by
  show zone.number 0 (Nat.toDigitsCore 10 (n + 1) n []) = n
  rw [number_toDigitsCore (n + 1) n [] (Nat.lt_succ_self n)]
  rfl

theorem string_ttl_inj (r : RR) (ttl : Nat)
    (h : ({ r with Ttl := ttl } : RR).String = r.String) : ttl = r.Ttl := by
  have hd := congrArg String.data h
  simp only [RR.String, String.data_append, List.append_assoc] at hd
  have h1 := List.append_cancel_left hd
  have h2 := List.append_cancel_left h1
  have h3 : (toString ttl).data = (toString r.Ttl).data := List.append_cancel_right h2
  have := congrArg (zone.number 0) h3
  rwa [number_toString, number_toString] at this

/-- C17: a single expected record `r` is not verified by any observed sequence
whose records all differ from `r` in their canonical text; the time to live is
part of that text, so a copy of `r` with another time to live does not match. -/
theorem verify_single_mismatch (r : RR) (observed : List RR)
    (hne : ∀ h ∈ observed, h.String ≠ r.String) :
    verifyExpectation [r] observed = false ∧
      ∀ ttl : Nat, ttl ≠ r.Ttl → verifyExpectation [r] [{ r with Ttl := ttl }] = false := by
  have key : ∀ obs : List RR, (∀ h ∈ obs, h.String ≠ r.String) →
      verifyExpectation [r] obs = false := by
    intro obs hobs
    cases hv : verifyExpectation [r] obs with
    | false => rfl
    | true =>
      obtain ⟨x, hx, hxe⟩ := (verify_true_iff [r] obs).1 hv r (List.mem_cons_self _ _)
      exact absurd hxe (hobs x hx)
  refine ⟨key observed hne, fun ttl httl => key _ ?_⟩
  intro h hm
  rw [List.mem_singleton] at hm
  subst hm
  exact fun hs => httl (string_ttl_inj r ttl hs)

/-- Witness of C17: the example record expected with 300 seconds, observed with 60. -/
theorem verify_single_mismatch_witness :
    verifyExpectation [exampleRR] [{ exampleRR with Ttl := 60 }] = false ∧
      ∀ ttl : Nat, ttl ≠ exampleRR.Ttl →
        verifyExpectation [exampleRR] [{ exampleRR with Ttl := ttl }] = false :=
  verify_single_mismatch exampleRR [{ exampleRR with Ttl := 60 }] (by decide)

/-- C18: repeating records of the expected sequence does not change the
result: two expected sequences with the same records, however often each
occurs, verify alike; so does a sequence with one record written `n + 1`
times in its place; and one observed record satisfies both copies of an
expected record. -/
theorem verify_duplicates (observed : List RR) :
    (∀ expected expected1 : List RR, (∀ x, x ∈ expected1 ↔ x ∈ expected) →
        verifyExpectation expected1 observed = verifyExpectation expected observed) ∧
      (∀ (pre post : List RR) (x : RR) (n : Nat),
        verifyExpectation (pre ++ List.replicate (n + 1) x ++ post) observed =
          verifyExpectation (pre ++ x :: post) observed) ∧
      ∀ r : RR, verifyExpectation [r, r] [r] = true := by
  refine ⟨fun expected expected1 he =>
    verify_congr expected expected1 observed observed he (fun _ => Iff.rfl), ?_, ?_⟩
  · intro pre post x n
    apply verify_congr _ _ observed observed _ (fun _ => Iff.rfl)
    intro y
    simp only [List.mem_append, List.mem_replicate, List.mem_cons]
    constructor
    · rintro ((h | ⟨_, h⟩) | h)
      · exact Or.inl h
      · exact Or.inr (Or.inl h)
      · exact Or.inr (Or.inr h)
    · rintro (h | h | h)
      · exact Or.inl (Or.inl h)
      · exact Or.inl (Or.inr ⟨Nat.succ_ne_zero n, h⟩)
      · exact Or.inr h
  · intro r
    rw [verify_true_iff]
    intro e he
    simp only [List.mem_cons, List.mem_singleton, List.not_mem_nil, or_false, or_self] at he
    exact ⟨r, List.mem_cons_self _ _, by rw [he]⟩

/-- C19: with no expected record `verifyExpectation` is true for every
observed sequence, the empty one included. -/
theorem verify_nil (observed : List RR) :
    verifyExpectation [] observed = true ∧ verifyExpectation [] [] = true :=
  ⟨rfl, rfl⟩

/-! ## The exchange issued for a check -/

theorem body_client {W : Type} (env : Env W) (lib : Lib) (w : W) (client client1 : Client)
    (checkName : String) (check : Check) :
    Checker.Run.body env lib w client1 checkName check =
      Checker.Run.body env lib w client checkName check := rfl

theorem loop_client {W : Type} (env : Env W) (lib : Lib) (checks : List (String × Check)) :
    ∀ (w : W) (client client1 : Client) (out : List CheckResult),
      Checker.Run.loop env lib w client1 out checks =
        Checker.Run.loop env lib w client out checks := by
  induction checks with
  | nil => intro w client client1 out; rfl
  | cons p rest ih =>
    intro w client client1 out
    obtain ⟨checkName, check⟩ := p
    simp only [Checker.Run.loop]
    rw [body_client env lib w client client1 checkName check]

/-- C20: whatever state the shared client is in when a check comes up, the
loop body of `Run` issues one exchange for it: with the transport and the
timeout of that check, to the resolver address of that check, carrying one
question, for the fully-qualified query name of that check, of type A and
class INET, with recursion desired.  The result of the check is recorded from
what this exchange returned, the run goes on in the world this exchange left,
and in a world that keeps a list of the exchanges made exactly this one is
added, whatever the expectations of the check are. -/
theorem run_exchange_own_settings {W : Type} (env : Env W) (lib : Lib) (w : W) (client : Client)
    (checkName : String) (check : Check) :
    Checker.Run.body env lib w client checkName check =
        (Checker.Run.record checkName check (env.Now w).1
            (env.Exchange (env.Now w).2 { Net := check.Proto, Timeout := check.ResolverTimeout }
              { RecursionDesired := true, Rcode := 0,
                Question := [{ Name := lib.Fqdn check.Resolve, Qtype := TypeA, Qclass := ClassINET }],
                Answer := [], Ns := [], Extra := [] }
              check.Resolver).1,
          (env.Exchange (env.Now w).2 { Net := check.Proto, Timeout := check.ResolverTimeout }
              { RecursionDesired := true, Rcode := 0,
                Question := [{ Name := lib.Fqdn check.Resolve, Qtype := TypeA, Qclass := ClassINET }],
                Answer := [], Ns := [], Extra := [] }
              check.Resolver).2,
          { Net := check.Proto, Timeout := check.ResolverTimeout }) ∧
      (∀ (out : List CheckResult) (rest : List (String × Check)),
        Checker.Run.loop env lib w client out ((checkName, check) :: rest) =
          match Checker.Run.record checkName check (env.Now w).1
              (env.Exchange (env.Now w).2 { Net := check.Proto, Timeout := check.ResolverTimeout }
                { RecursionDesired := true, Rcode := 0,
                  Question :=
                    [{ Name := lib.Fqdn check.Resolve, Qtype := TypeA, Qclass := ClassINET }],
                  Answer := [], Ns := [], Extra := [] }
                check.Resolver).1 with
          | none => none
          | some result =>
            Checker.Run.loop env lib
              (env.Exchange (env.Now w).2 { Net := check.Proto, Timeout := check.ResolverTimeout }
                { RecursionDesired := true, Rcode := 0,
                  Question :=
                    [{ Name := lib.Fqdn check.Resolve, Qtype := TypeA, Qclass := ClassINET }],
                  Answer := [], Ns := [], Extra := [] }
                check.Resolver).2
              { Net := check.Proto, Timeout := check.ResolverTimeout } (out ++ [result]) rest) ∧
      (∀ (answer : Client → Msg → String → Exchanged) (log : List (Client × Msg × String))
          (e : Expect),
        (Checker.Run.body (recordingEnv answer) lib log client checkName
            { check with Expect := e }).2.1 =
          log ++
            [({ Net := check.Proto, Timeout := check.ResolverTimeout },
              { RecursionDesired := true, Rcode := 0,
                Question := [{ Name := lib.Fqdn check.Resolve, Qtype := TypeA, Qclass := ClassINET }],
                Answer := [], Ns := [], Extra := [] },
              check.Resolver)]) ∧
      (∀ client1 : Client,
        Checker.Run.body env lib w client1 checkName check =
          Checker.Run.body env lib w client checkName check) ∧
      ∀ (client1 : Client) (out : List CheckResult) (rest : List (String × Check)),
        Checker.Run.loop env lib w client1 out ((checkName, check) :: rest) =
          Checker.Run.loop env lib w client out ((checkName, check) :: rest) :=
  ⟨rfl, fun _ _ => rfl, fun _ _ _ => rfl,
    fun client1 => body_client env lib w client client1 checkName check,
    fun client1 out rest => loop_client env lib ((checkName, check) :: rest) w client client1 out⟩

end DnsCheck
